import Mathlib

/-!
# Verification of the altv-rpc cross-context RPC engine

A shallow embedding of the altv-rpc library (envelope codec with chunking,
reassembly table, correlation table, procedure/event/surface registries and
the public call facade), translated from the TypeScript sources
(`index.ts`, `util.ts`), together with theorems settling the spec claims.

Modelling conventions:
* transport strings are `List Char`; event ids, procedure names and event
  names are Lean `String`s (only equality is used on them);
* JS promises are first-write-wins cells `Option Settlement` stored in a
  promise heap keyed by `Nat`; a `resolve` closure is represented by the
  key of the promise it settles;
* `undefined` is `Option.none`; a JS dictionary is an association list;
* a thrown JS `TypeError` is an `Except.error`;
* `util.uid()` (random id generation) is an oracle: the id is an explicit
  parameter of the calling functions.
-/

namespace AltvRpc

/-! ## Association lists (JS object dictionaries)

`getA`/`setA`/`delA` model property read, property assignment and
`delete obj[k]` on a JS object used as a string-keyed map. -/

def getA {κ β : Type} [DecidableEq κ] : List (κ × β) → κ → Option β
  | [], _ => none
  | (k', v) :: t, k => if k' = k then some v else getA t k

def setA {κ β : Type} [DecidableEq κ] : List (κ × β) → κ → β → List (κ × β)
  | [], k, v => [(k, v)]
  | (k', v') :: t, k, v => if k' = k then (k, v) :: t else (k', v') :: setA t k v

def delA {κ β : Type} [DecidableEq κ] : List (κ × β) → κ → List (κ × β)
  | [], _ => []
  | (k', v') :: t, k => if k' = k then delA t k else (k', v') :: delA t k

@[simp] theorem getA_setA_self {κ β : Type} [DecidableEq κ]
    (l : List (κ × β)) (k : κ) (v : β) : getA (setA l k v) k = some v := by
  induction l with
  | nil => simp [getA, setA]
  | cons h t ih =>
    obtain ⟨k', v'⟩ := h
    by_cases hk : k' = k <;> simp [getA, setA, hk, ih]

theorem getA_setA_ne {κ β : Type} [DecidableEq κ]
    (l : List (κ × β)) (k k' : κ) (v : β) (h : k ≠ k') :
    getA (setA l k v) k' = getA l k' := by
  induction l with
  | nil => simp [getA, setA, h]
  | cons hd t ih =>
    obtain ⟨k₀, v₀⟩ := hd
    by_cases hk : k₀ = k
    · subst hk
      simp [getA, setA, h]
    · simp only [setA, if_neg hk, getA]
      by_cases hk' : k₀ = k' <;> simp [hk', ih]

/-! ## The chunking codec (`util.chunk`)

`util.chunk(data)` is `data.match(/.{1,10000}/g)`.  Per ECMA-262, `.`
(without the `s` flag) matches any character except a LineTerminator
(U+000A LF, U+000D CR, U+2028 LS, U+2029 PS), the quantifier is greedy,
and `String.prototype.match` with a global regex returns the array of all
matches in order, or `null` when there is none.  So the result is the
list of maximal runs of non-LineTerminator characters, each run split
into pieces of at most 10000 characters — LineTerminator characters are
silently dropped — and `none` models the `null` result. -/

def chunkBound : Nat := 10000

def isLineTerminator (c : Char) : Bool :=
  c = '\n' || c = '\r' || c = Char.ofNat 0x2028 || c = Char.ofNat 0x2029

/-- Take up to `n` leading non-LineTerminator characters; returns the run
taken and the rest of the input. -/
def takeRun : Nat → List Char → List Char × List Char
  | _, [] => ([], [])
  | 0, l => ([], l)
  | n + 1, c :: cs =>
    if isLineTerminator c then ([], c :: cs)
    else
      let p := takeRun n cs
      (c :: p.1, p.2)

theorem takeRun_append (n : Nat) (l : List Char) :
    (takeRun n l).1 ++ (takeRun n l).2 = l := by
  induction n generalizing l with
  | zero => cases l <;> simp [takeRun]
  | succ n ih =>
    cases l with
    | nil => simp [takeRun]
    | cons c cs =>
      by_cases hc : isLineTerminator c <;> simp [takeRun, hc, ih]

theorem takeRun_snd_length (n : Nat) (l : List Char) :
    (takeRun n l).2.length ≤ l.length := by
  induction n generalizing l with
  | zero => cases l <;> simp [takeRun]
  | succ n ih =>
    cases l with
    | nil => simp [takeRun]
    | cons c cs =>
      by_cases hc : isLineTerminator c
      · simp [takeRun, hc]
      · simpa [takeRun, hc] using Nat.le_succ_of_le (ih cs)

/-- One match of `/.{1,n+1}/g` takes the head character (known not to be a
LineTerminator) plus up to `n` more; `chunkCore n` produces the full match
list of `/.{1,n+1}/g`. -/
def chunkCore (n : Nat) : List Char → List (List Char)
  | [] => []
  | c :: cs =>
    if isLineTerminator c then chunkCore n cs
    else (c :: (takeRun n cs).1) :: chunkCore n (takeRun n cs).2
termination_by l => l.length
decreasing_by
  · simp
  · exact Nat.lt_succ_of_le (takeRun_snd_length n cs)

/-- `util.chunk`: `data.match(/.{1,10000}/g)`, `none` for the `null` result. -/
def chunk (data : List Char) : Option (List (List Char)) :=
  match chunkCore (chunkBound - 1) data with
  | [] => none
  | ps => some ps

theorem mem_takeRun_fst (a : Char) :
    ∀ (m : Nat) (l : List Char), a ∈ (takeRun m l).1 → isLineTerminator a = false := by
  intro m
  induction m with
  | zero => intro l hl; cases l <;> simp [takeRun] at hl
  | succ m ihm =>
    intro l hl
    cases l with
    | nil => simp [takeRun] at hl
    | cons x xs =>
      by_cases hx : isLineTerminator x
      · simp [takeRun, hx] at hl
      · simp only [takeRun, if_neg hx, List.mem_cons] at hl
        rcases hl with rfl | hl
        · simpa using hx
        · exact ihm xs hl

theorem chunkCore_flatten (n : Nat) (l : List Char) :
    (chunkCore n l).foldr (· ++ ·) [] = l.filter (fun c => ! isLineTerminator c) := by
  induction l using chunkCore.induct n with
  | case1 => simp [chunkCore]
  | case2 c cs hc ih =>
    simp only [chunkCore, if_pos hc, List.filter_cons]
    simpa [hc] using ih
  | case3 c cs hc ih =>
    simp only [chunkCore, if_neg hc, List.foldr_cons]
    have hsplit := takeRun_append n cs
    have hrun : ((takeRun n cs).1).filter (fun c => ! isLineTerminator c)
        = (takeRun n cs).1 := by
      apply List.filter_eq_self.2
      intro a ha
      simp [mem_takeRun_fst a n cs ha]
    calc (c :: (takeRun n cs).1) ++ (chunkCore n (takeRun n cs).2).foldr (· ++ ·) []
        = c :: ((takeRun n cs).1 ++ ((takeRun n cs).2).filter (fun c => ! isLineTerminator c)) := by
          simp [ih]
      _ = c :: (((takeRun n cs).1).filter (fun c => ! isLineTerminator c)
            ++ ((takeRun n cs).2).filter (fun c => ! isLineTerminator c)) := by rw [hrun]
      _ = (c :: cs).filter (fun c => ! isLineTerminator c) := by
          have hc' : isLineTerminator c = false := by simpa using hc
          rw [List.filter_cons]
          simp only [hc', Bool.not_false, if_true]
          rw [← List.filter_append, hsplit]

theorem chunkCore_ne_nil_of_head (n : Nat) (c : Char) (cs : List Char)
    (hc : ¬ isLineTerminator c) : chunkCore n (c :: cs) ≠ [] := by
  simp [chunkCore, hc]

/-! ## JSON values and the serialization boundary

`util.stringifyData` / `util.parseData` wrap the external JS builtins
`JSON.stringify` / `JSON.parse` (the alt:V entity stand-in replacement
they also perform is the external domain-codec boundary and is not
involved in any claim).  We model the builtins on the JSON fragment the
claims exercise: strings (with the full ECMA-262 `QuoteJSONString`
escaping rules), integers, booleans and `null`.  Notably, per ECMA-262,
`JSON.stringify` does *not* escape U+2028 LINE SEPARATOR or U+2029
PARAGRAPH SEPARATOR inside strings — they appear raw in the output. -/

inductive JsVal where
  | str : List Char → JsVal
  | num : Int → JsVal
  | boolean : Bool → JsVal
  | null : JsVal
  | arr : List JsVal → JsVal

def ERR_NOT_FOUND : JsVal := .str "PROCEDURE_NOT_FOUND".data

def INVALID_BROWSER : JsVal := .str "INVALID_BROWSER".data

def hexDigit (n : Nat) : Char :=
  if n < 10 then Char.ofNat (48 + n) else Char.ofNat (87 + n)

/-- ECMA-262 `UnicodeEscape`: a four-digit lowercase hex escape. -/
def unicodeEscape (n : Nat) : List Char :=
  ['\\', 'u', hexDigit (n / 4096 % 16), hexDigit (n / 256 % 16),
   hexDigit (n / 16 % 16), hexDigit (n % 16)]

/-- ECMA-262 `QuoteJSONString` applied to one character: `"` and `\` get a
backslash escape, the named control escapes are used for BS/TAB/LF/FF/CR,
other control characters get a `\uXXXX` escape, and every other character
— including U+2028 and U+2029 — passes through unescaped. -/
def quoteJSONStringChar (c : Char) : List Char :=
  if c = '"' then ['\\', '"']
  else if c = '\\' then ['\\', '\\']
  else if c = Char.ofNat 8 then ['\\', 'b']
  else if c = Char.ofNat 9 then ['\\', 't']
  else if c = Char.ofNat 10 then ['\\', 'n']
  else if c = Char.ofNat 12 then ['\\', 'f']
  else if c = Char.ofNat 13 then ['\\', 'r']
  else if c.toNat < 32 then unicodeEscape c.toNat
  else [c]

def quoteJSONString (s : List Char) : List Char :=
  '"' :: (s.map quoteJSONStringChar).foldr (· ++ ·) [] ++ ['"']

mutual

/-- `util.stringifyData` on the modelled fragment: `JSON.stringify`. -/
def stringifyData : JsVal → List Char
  | .str s => quoteJSONString s
  | .num i => (toString i).data
  | .boolean true => "true".data
  | .boolean false => "false".data
  | .null => "null".data
  | .arr xs => '[' :: stringifyJsonList xs ++ [']']

def stringifyJsonList : List JsVal → List Char
  | [] => []
  | [x] => stringifyData x
  | x :: y :: xs => stringifyData x ++ ',' :: stringifyJsonList (y :: xs)

end

def hexVal (c : Char) : Option Nat :=
  if 48 ≤ c.toNat ∧ c.toNat ≤ 57 then some (c.toNat - 48)
  else if 97 ≤ c.toNat ∧ c.toNat ≤ 102 then some (c.toNat - 87)
  else if 65 ≤ c.toNat ∧ c.toNat ≤ 70 then some (c.toNat - 55)
  else none

/-- Body of a JSON string literal after the opening quote; the closing
quote must end the text (`JSON.parse` rejects trailing garbage). -/
def parseStringBody : List Char → Option (List Char)
  | [] => none
  | '"' :: rest => if rest = [] then some [] else none
  | '\\' :: esc =>
    match esc with
    | '"' :: t => (parseStringBody t).map (fun r => '"' :: r)
    | '\\' :: t => (parseStringBody t).map (fun r => '\\' :: r)
    | '/' :: t => (parseStringBody t).map (fun r => '/' :: r)
    | 'b' :: t => (parseStringBody t).map (fun r => Char.ofNat 8 :: r)
    | 'f' :: t => (parseStringBody t).map (fun r => Char.ofNat 12 :: r)
    | 'n' :: t => (parseStringBody t).map (fun r => '\n' :: r)
    | 'r' :: t => (parseStringBody t).map (fun r => '\r' :: r)
    | 't' :: t => (parseStringBody t).map (fun r => Char.ofNat 9 :: r)
    | 'u' :: h1 :: h2 :: h3 :: h4 :: t =>
      match hexVal h1, hexVal h2, hexVal h3, hexVal h4 with
      | some a, some b, some c, some d =>
        (parseStringBody t).map (fun r => Char.ofNat (a * 4096 + b * 256 + c * 16 + d) :: r)
      | _, _, _, _ => none
    | _ => none
  | c :: t =>
    if c.toNat < 32 then none else (parseStringBody t).map (fun r => c :: r)

def parseDigitsAux (acc : Nat) : List Char → Option Nat
  | [] => some acc
  | c :: t => if c.isDigit then parseDigitsAux (acc * 10 + (c.toNat - 48)) t else none

def parseDigits : List Char → Option Nat
  | [] => none
  | l => parseDigitsAux 0 l

def parseIntText : List Char → Option JsVal
  | '-' :: ds => (parseDigits ds).map (fun n => JsVal.num (-(n : Int)))
  | ds => (parseDigits ds).map (fun n => JsVal.num (n : Int))

/-- `util.parseData` on the modelled fragment: `JSON.parse` wrapped in the
`try`/`catch` of `util.ts` that turns a parse failure into `undefined`
(`none`).  Whitespace handling is omitted (no payload in this development
contains whitespace around the value), and parsing of array payloads is
omitted as well: array payloads are produced by the internal pass-through
calls but are never re-parsed by any theorem below. -/
def parseData (s : List Char) : Option JsVal :=
  if s = "true".data then some (.boolean true)
  else if s = "false".data then some (.boolean false)
  else if s = "null".data then some .null
  else
    match s with
    | '"' :: rest => (parseStringBody rest).map JsVal.str
    | other => parseIntText other

/-! ## Envelopes (`Event`), chunked send and reassembly

Translated from `index.ts`: the `Event` interface, `sendEvent` and the
partial-accumulation prefix of `processEvent`. -/

inductive EventType where
  | REQUEST
  | RESPONSE_SUCCESS
  | RESPONSE_ERROR
  deriving DecidableEq, Repr

inductive Env where
  | server
  | client
  | cef
  deriving DecidableEq, Repr

structure Event where
  id : String
  type : EventType
  name : Option String := none
  env : Env
  part : Nat
  total : Nat
  args : Option (List Char) := none
  noRet : Bool := false
  fenv : Option Env := none
  deriving DecidableEq, Repr

/-- The fields of `Omit<Event, 'args' | 'part' | 'total'>`. -/
structure EventBase where
  id : String
  type : EventType
  name : Option String := none
  env : Env
  noRet : Bool := false
  fenv : Option Env := none
  deriving DecidableEq, Repr

def mkEvent (b : EventBase) (part total : Nat) (args : Option (List Char)) : Event :=
  { id := b.id, type := b.type, name := b.name, env := b.env,
    part := part, total := total, args := args, noRet := b.noRet, fenv := b.fenv }

/-- `parts.forEach((part, idx) => send(idx + 1, parts.length, part))`,
with the running index made explicit. -/
def chunksToEvents (b : EventBase) (total : Nat) : Nat → List (List Char) → List Event
  | _, [] => []
  | idx, p :: ps => mkEvent b (idx + 1) total (some p) :: chunksToEvents b total (idx + 1) ps

/-- `sendEvent(event, args, callback, split)`: stringifies defined args,
splits them (via `util.chunk` when `split`), and produces one envelope per
part; with no args a single envelope with `total = 1` and no chunk.
`none` models the crash of `parts.forEach` when `util.chunk` returned
`null`. -/
def sendEvent (b : EventBase) (args : Option JsVal) (split : Bool) : Option (List Event) :=
  match args with
  | some v =>
    let stringified := stringifyData v
    let parts := if split then chunk stringified else some [stringified]
    parts.map (fun ps => chunksToEvents b ps.length 0 ps)
  | none => some [mkEvent b 1 1 none]

/-- `Incoming`: reassembly state for one message id. -/
structure Incoming where
  args : Option (List Char) := none
  recv : Nat
  total : Nat
  deriving DecidableEq, Repr

/-- The reassembly prefix of `processEvent` (lines 144-164): create or
fetch the `Incoming` entry, append the arriving chunk, bump `recv`, store
the entry back, and report the accumulated payload exactly when
`recv` has reached `total`.  The completed entry is *not* removed. -/
def reassembleStep (tbl : List (String × Incoming)) (ev : Event) :
    List (String × Incoming) × Option (Option (List Char)) :=
  let incoming0 := (getA tbl ev.id).getD { recv := 0, total := ev.total }
  let incoming1 :=
    match ev.args with
    | some a => { incoming0 with args := some (incoming0.args.getD [] ++ a) }
    | none => incoming0
  let incoming2 := { incoming1 with recv := incoming1.recv + 1 }
  let tbl' := setA tbl ev.id incoming2
  if incoming2.recv < incoming2.total then (tbl', none)
  else (tbl', some incoming2.args)

/-- Feed a list of envelopes through `reassembleStep` in order, collecting
the payloads dispatched on completion. -/
def reassembleAll (tbl : List (String × Incoming)) :
    List Event → List (String × Incoming) × List (Option (List Char))
  | [] => (tbl, [])
  | e :: t =>
    let step := reassembleStep tbl e
    let rest := reassembleAll step.1 t
    (rest.1, step.2.toList ++ rest.2)

/-! ## Correlation table, promises and the dispatcher

Translated from `index.ts`: the `Pending` interface, the request and
response branches of `processEvent`, and `callProcedure`.  A JS promise
is a first-write-wins cell; the `resolve` closure stored in a `Pending`
entry is represented by the heap key of the promise it settles. -/

structure Player where
  pid : Nat
  deriving DecidableEq, Repr

structure Browser where
  bid : Nat
  valid : Bool
  deriving DecidableEq, Repr

inductive Settlement where
  | fulfilled : Option JsVal → Settlement
  | rejected : Option JsVal → Settlement

/-- Settling an already-settled JS promise is a no-op: the first writer
wins. -/
def settleFirst : Option Settlement → Settlement → Option Settlement
  | some s, _ => some s
  | none, s => some s

def settlePromise (promises : List (Nat × Option Settlement)) (pid : Nat)
    (s : Settlement) : List (Nat × Option Settlement) :=
  match getA promises pid with
  | some cell => setA promises pid (settleFirst cell s)
  | none => promises

/-- `Pending`: a correlation-table entry; `promiseId` stands for the
captured `resolve` closure. -/
structure Pending where
  player : Option Player := none
  promiseId : Nat
  deriving DecidableEq, Repr

structure ProcState where
  incoming : List (String × Incoming) := []
  pending : List (String × Pending) := []
  promises : List (Nat × Option Settlement) := []
  nextPromise : Nat := 0

/-- `new Promise(resolve => ...)`: allocate an unsettled cell and hand out
its key (standing for `resolve`). -/
def newPromise (st : ProcState) : ProcState × Nat :=
  ({ st with promises := st.promises ++ [(st.nextPromise, none)],
             nextPromise := st.nextPromise + 1 }, st.nextPromise)

structure ListenerInfo where
  environment : Env
  id : Option String := none
  player : Option Player := none
  browser : Option Browser := none

/-- A procedure handler: receives the decoded args and the caller info,
returns a value or throws. -/
def ProcHandler : Type :=
  Option JsVal → ListenerInfo → Except (Option JsVal) (Option JsVal)

/-- The procedure registry maps a name to `some handler`, or to `none`
when `unregister` assigned `undefined` to the slot. -/
def Listeners : Type := List (String × Option ProcHandler)

/-- `callProcedure`: `if (!listener) throw ERR_NOT_FOUND` covers both a
never-assigned name and a name `unregister` set to `undefined`. -/
def callProcedure (listeners : Listeners) (name : String) (args : Option JsVal)
    (info : ListenerInfo) : Except (Option JsVal) (Option JsVal) :=
  match (getA listeners name).getD none with
  | none => .error (some ERR_NOT_FOUND)
  | some f => f args info

/-- An outbound transport emission, one constructor per `alt` send used by
the dispatcher and the call functions. -/
inductive Emission where
  | toPlayer : Option Player → Event → Emission
  | toServer : Event → Emission
  | toBrowser : Browser → Event → Emission
  | toClientLocal : Event → Emission

/-- A JS runtime exception escaping `processEvent`. -/
inductive JsError where
  | typeErrorUndefinedPlayer
  | forEachOfNull
  deriving DecidableEq, Repr

/-- The response branch of `processEvent` after the identity check:
`info.resolve(event.type === RESPONSE_SUCCESS ? args : Promise.reject(args))`
and `delete rpcPending[event.id]`. -/
def settleResponseB (st : ProcState) (b : EventBase) (pend : Pending)
    (args : Option JsVal) : ProcState :=
  let s := if b.type = EventType.RESPONSE_SUCCESS then Settlement.fulfilled args
           else Settlement.rejected args
  { st with pending := delA st.pending b.id,
            promises := settlePromise st.promises pend.promiseId s }

/-- The part of an `Event` that does not vary across the chunk envelopes
of one logical message. -/
def Event.base (ev : Event) : EventBase :=
  { id := ev.id, type := ev.type, name := ev.name, env := ev.env,
    noRet := ev.noRet, fenv := ev.fenv }

/-- The body of `processEvent` that runs once reassembly has completed
(`incoming.recv == incoming.total`), translated line by line: decode the
accumulated payload; for a request, pick the return channel and the
`split` flag by environment, call the procedure and (unless `noRet`) send
the outcome back; for a response, on the server first compare
`info.player` with the sender — reading `info.player` throws a
`TypeError` when no entry exists — then resolve and delete the entry if
present. -/
def dispatchComplete (env : Env) (listeners : Listeners) (st1 : ProcState)
    (b : EventBase) (payload : Option (List Char))
    (player : Option Player) (webView : Option Browser) :
    Except JsError (ProcState × List Emission) :=
  let args : Option JsVal := payload.bind parseData
  match b.type with
  | .REQUEST =>
    let baseInfo : ListenerInfo :=
      { id := some b.id, environment := b.fenv.getD b.env, player := player }
    let retSel : Option ((Event → List Emission) × Bool × ListenerInfo) :=
      match env with
      | .server => some (fun e => [Emission.toPlayer player e], true, baseInfo)
      | .client =>
        if b.env = .server then some (fun e => [Emission.toServer e], true, baseInfo)
        else if b.env = .cef then
          some (fun e =>
                  match webView with
                  | some wv => if wv.valid then [Emission.toBrowser wv e] else []
                  | none => [],
                true, { baseInfo with browser := webView })
        else none
      | .cef => some (fun e => [Emission.toClientLocal e], false, baseInfo)
    match retSel with
    | none => .ok (st1, [])
    | some (retF, split, info) =>
      let result := callProcedure listeners (b.name.getD "undefined") args info
      if b.noRet then .ok (st1, [])
      else
        let outcome :=
          match result with
          | .ok v => (EventType.RESPONSE_SUCCESS, v)
          | .error e => (EventType.RESPONSE_ERROR, e)
        match sendEvent { id := b.id, type := outcome.1, env := env } outcome.2 split with
        | none => .error .forEachOfNull
        | some evs => .ok (st1, (evs.map retF).foldr (· ++ ·) [])
  | _ =>
    let pend? := getA st1.pending b.id
    if env = .server then
      match pend? with
      | none => .error .typeErrorUndefinedPlayer
      | some pend =>
        if pend.player ≠ player then .ok (st1, [])
        else .ok (settleResponseB st1 b pend args, [])
    else
      match pend? with
      | none => .ok (st1, [])
      | some pend => .ok (settleResponseB st1 b pend args, [])

/-- `processEvent(event, player?, webView?)`: reassemble, and dispatch
once the message is complete. -/
def processEvent (env : Env) (listeners : Listeners) (st : ProcState) (ev : Event)
    (player : Option Player := none) (webView : Option Browser := none) :
    Except JsError (ProcState × List Emission) :=
  let step := reassembleStep st.incoming ev
  let st1 := { st with incoming := step.1 }
  match step.2 with
  | none => .ok (st1, [])
  | some payload => dispatchComplete env listeners st1 ev.base payload player webView

/-- Process a list of inbound envelopes in order, accumulating emissions;
an uncaught exception aborts the run. -/
def processEvents (env : Env) (listeners : Listeners) (st : ProcState)
    (evs : List Event) (player : Option Player := none)
    (webView : Option Browser := none) :
    Except JsError (ProcState × List Emission) :=
  match evs with
  | [] => .ok (st, [])
  | e :: t =>
    match processEvent env listeners st e player webView with
    | .error err => .error err
    | .ok (st', ems) =>
      match processEvents env listeners st' t player webView with
      | .error err => .error err
      | .ok (st'', ems') => .ok (st'', ems ++ ems')

/-! ## Reassembly and dispatch lemmas -/

theorem setA_setA {κ β : Type} [DecidableEq κ] (l : List (κ × β)) (k : κ) (v v' : β) :
    setA (setA l k v) k v' = setA l k v' := by
  induction l with
  | nil => simp [setA]
  | cons h t ih =>
    obtain ⟨k₀, v₀⟩ := h
    by_cases hk : k₀ = k <;> simp [setA, hk, ih]

@[simp] theorem mkEvent_id (b : EventBase) (p t : Nat) (a : Option (List Char)) :
    (mkEvent b p t a).id = b.id := rfl

@[simp] theorem mkEvent_args (b : EventBase) (p t : Nat) (a : Option (List Char)) :
    (mkEvent b p t a).args = a := rfl

@[simp] theorem mkEvent_total (b : EventBase) (p t : Nat) (a : Option (List Char)) :
    (mkEvent b p t a).total = t := rfl

@[simp] theorem mkEvent_base (b : EventBase) (p t : Nat) (a : Option (List Char)) :
    (mkEvent b p t a).base = b := rfl

theorem reassembleStep_present (tbl : List (String × Incoming)) (ev : Event)
    (e : Incoming) (p : List Char)
    (hget : getA tbl ev.id = some e) (hargs : ev.args = some p) :
    reassembleStep tbl ev =
      (setA tbl ev.id { args := some (e.args.getD [] ++ p), recv := e.recv + 1,
                        total := e.total },
       if e.recv + 1 < e.total then none
       else some (some (e.args.getD [] ++ p))) := by
  simp only [reassembleStep, hget, hargs, Option.getD_some]
  split <;> rfl

theorem reassembleStep_absent (tbl : List (String × Incoming)) (ev : Event)
    (p : List Char) (hget : getA tbl ev.id = none) (hargs : ev.args = some p) :
    reassembleStep tbl ev =
      (setA tbl ev.id { args := some p, recv := 1, total := ev.total },
       if 1 < ev.total then none else some (some p)) := by
  simp only [reassembleStep, hget, hargs, Option.getD_none]
  split <;> rfl

theorem reassembleStep_absent_noArgs (tbl : List (String × Incoming)) (ev : Event)
    (hget : getA tbl ev.id = none) (hargs : ev.args = none) :
    reassembleStep tbl ev =
      (setA tbl ev.id { args := none, recv := 1, total := ev.total },
       if 1 < ev.total then none else some none) := by
  simp only [reassembleStep, hget, hargs, Option.getD_none]
  split <;> rfl

theorem processEvent_partial (env : Env) (listeners : Listeners) (st : ProcState)
    (ev : Event) (player : Option Player) (webView : Option Browser)
    (h : (reassembleStep st.incoming ev).2 = none) :
    processEvent env listeners st ev player webView
      = .ok ({ st with incoming := (reassembleStep st.incoming ev).1 }, []) := by
  simp only [processEvent, h]

theorem processEvent_complete (env : Env) (listeners : Listeners) (st : ProcState)
    (ev : Event) (player : Option Player) (webView : Option Browser)
    (payload : Option (List Char))
    (h : (reassembleStep st.incoming ev).2 = some payload) :
    processEvent env listeners st ev player webView
      = dispatchComplete env listeners
          { st with incoming := (reassembleStep st.incoming ev).1 }
          ev.base payload player webView := by
  simp only [processEvent, h]

theorem processEvents_one (env : Env) (listeners : Listeners) (st : ProcState)
    (ev : Event) (player : Option Player) (webView : Option Browser) :
    processEvents env listeners st [ev] player webView
      = processEvent env listeners st ev player webView := by
  cases h : processEvent env listeners st ev player webView with
  | error e => simp [processEvents, h]
  | ok r =>
    obtain ⟨st', ems⟩ := r
    simp [processEvents, h]

theorem processEvents_cons_partial (env : Env) (listeners : Listeners)
    (st st' : ProcState) (ev : Event) (evs : List Event)
    (player : Option Player) (webView : Option Browser)
    (h : processEvent env listeners st ev player webView = .ok (st', [])) :
    processEvents env listeners st (ev :: evs) player webView
      = processEvents env listeners st' evs player webView := by
  cases hrest : processEvents env listeners st' evs player webView with
  | error e => simp [processEvents, h, hrest]
  | ok r =>
    obtain ⟨a, b⟩ := r
    simp [processEvents, h, hrest]

/-- Folding a chunk train for an id that already has a reassembly entry:
each envelope appends its chunk in arrival order, the message completes
exactly at the last envelope, and the dispatcher then runs on the
concatenated payload.  The completed entry stays in the table. -/
theorem processEvents_chunks_present (env : Env) (listeners : Listeners)
    (player : Option Player) (webView : Option Browser) (b : EventBase)
    (total : Nat) (parts : List (List Char)) (idx : Nat) (st : ProcState)
    (e : Incoming)
    (hget : getA st.incoming b.id = some e)
    (hsum : e.recv + parts.length = e.total)
    (hne : parts ≠ []) :
    processEvents env listeners st (chunksToEvents b total idx parts) player webView
      = dispatchComplete env listeners
          { st with incoming := (setA st.incoming b.id
              { args := some (e.args.getD [] ++ parts.foldr (· ++ ·) []),
                recv := e.total, total := e.total }) }
          b (some (e.args.getD [] ++ parts.foldr (· ++ ·) [])) player webView := by
  induction parts generalizing st e idx with
  | nil => exact absurd rfl hne
  | cons x xs ih =>
    cases xs with
    | nil =>
      have hfin : e.recv + 1 = e.total := by simpa using hsum
      have hstep := reassembleStep_present st.incoming (mkEvent b (idx + 1) total (some x))
        e x (by simpa using hget) (by simp)
      rw [mkEvent_id] at hstep
      rw [if_neg (by omega)] at hstep
      have hproc := processEvent_complete env listeners st
        (mkEvent b (idx + 1) total (some x)) player webView
        (some (e.args.getD [] ++ x)) (by rw [hstep])
      rw [hstep, mkEvent_base] at hproc
      rw [show chunksToEvents b total idx [x]
            = [mkEvent b (idx + 1) total (some x)] from rfl,
          processEvents_one, hproc, hfin]
      simp
    | cons y ys =>
      have hlt : e.recv + 1 < e.total := by
        simp only [List.length_cons] at hsum
        omega
      have hstep := reassembleStep_present st.incoming (mkEvent b (idx + 1) total (some x))
        e x (by simpa using hget) (by simp)
      rw [mkEvent_id, if_pos hlt] at hstep
      have hproc := processEvent_partial env listeners st
        (mkEvent b (idx + 1) total (some x)) player webView (by rw [hstep])
      rw [hstep] at hproc
      rw [show chunksToEvents b total idx (x :: y :: ys)
            = mkEvent b (idx + 1) total (some x) :: chunksToEvents b total (idx + 1) (y :: ys)
            from rfl,
          processEvents_cons_partial env listeners st _ _ _ player webView hproc]
      have ih' := ih (idx + 1)
        { st with incoming := (setA st.incoming b.id
            { args := some (e.args.getD [] ++ x), recv := e.recv + 1, total := e.total }) }
        { args := some (e.args.getD [] ++ x), recv := e.recv + 1, total := e.total }
        (by simp) (by simp only [List.length_cons] at hsum ⊢; omega) (by simp)
      simp only [Option.getD_some, setA_setA] at ih'
      rw [ih']
      simp [List.append_assoc]

/-- Folding a chunk train for a fresh id: the first envelope creates the
entry with its `total`, and the message completes at envelope number
`total = parts.length` with the chunks concatenated in arrival order. -/
theorem processEvents_chunks_fresh (env : Env) (listeners : Listeners)
    (player : Option Player) (webView : Option Browser) (b : EventBase)
    (parts : List (List Char)) (idx : Nat) (st : ProcState)
    (hget : getA st.incoming b.id = none)
    (hne : parts ≠ []) :
    processEvents env listeners st (chunksToEvents b parts.length idx parts) player webView
      = dispatchComplete env listeners
          { st with incoming := (setA st.incoming b.id
              { args := some (parts.foldr (· ++ ·) []),
                recv := parts.length, total := parts.length }) }
          b (some (parts.foldr (· ++ ·) [])) player webView := by
  cases parts with
  | nil => exact absurd rfl hne
  | cons x xs =>
    have hstep := reassembleStep_absent st.incoming
      (mkEvent b (idx + 1) (x :: xs).length (some x)) x (by simpa using hget) (by simp)
    rw [mkEvent_id, mkEvent_total] at hstep
    cases xs with
    | nil =>
      rw [if_neg (by simp)] at hstep
      have hproc := processEvent_complete env listeners st
        (mkEvent b (idx + 1) (x :: ([] : List (List Char))).length (some x)) player webView
        (some x) (by rw [hstep])
      rw [hstep, mkEvent_base] at hproc
      rw [show chunksToEvents b (x :: ([] : List (List Char))).length idx [x]
            = [mkEvent b (idx + 1) (x :: ([] : List (List Char))).length (some x)] from rfl,
          processEvents_one, hproc]
      simp
    | cons y ys =>
      rw [if_pos (by simp)] at hstep
      have hproc := processEvent_partial env listeners st
        (mkEvent b (idx + 1) (x :: y :: ys).length (some x)) player webView (by rw [hstep])
      rw [hstep] at hproc
      rw [show chunksToEvents b (x :: y :: ys).length idx (x :: y :: ys)
            = mkEvent b (idx + 1) (x :: y :: ys).length (some x)
              :: chunksToEvents b (x :: y :: ys).length (idx + 1) (y :: ys)
            from rfl,
          processEvents_cons_partial env listeners st _ _ _ player webView hproc]
      have ih := processEvents_chunks_present env listeners player webView b
        (x :: y :: ys).length (y :: ys) (idx + 1)
        { st with incoming := (setA st.incoming b.id
            { args := some x, recv := 1, total := (x :: y :: ys).length }) }
        { args := some x, recv := 1, total := (x :: y :: ys).length }
        (by simp) (by simp only [List.length_cons]; omega) (by simp)
      simp only [Option.getD_some, setA_setA] at ih
      rw [ih]
      simp

theorem takeRun_all (n : Nat) (l : List Char)
    (hnt : ∀ c ∈ l, isLineTerminator c = false) (hlen : l.length ≤ n) :
    takeRun n l = (l, []) := by
  induction n generalizing l with
  | zero =>
    cases l with
    | nil => simp [takeRun]
    | cons c cs => simp at hlen
  | succ n ih =>
    cases l with
    | nil => simp [takeRun]
    | cons c cs =>
      have hc := hnt c (by simp)
      simp only [takeRun, hc, Bool.false_eq_true, if_false]
      rw [ih cs (fun d hd => hnt d (by simp [hd])) (by simpa using hlen)]

/-- A nonempty payload of at most `chunkBound` characters, none of them a
LineTerminator, is one single chunk. -/
theorem chunk_small (l : List Char) (hne : l ≠ [])
    (hnt : ∀ c ∈ l, isLineTerminator c = false) (hlen : l.length ≤ chunkBound) :
    chunk l = some [l] := by
  cases l with
  | nil => exact absurd rfl hne
  | cons c cs =>
    have hc := hnt c (by simp)
    have hrun : takeRun (chunkBound - 1) cs = (cs, []) := by
      apply takeRun_all
      · exact fun d hd => hnt d (by simp [hd])
      · have := hlen
        simp only [List.length_cons] at this
        omega
    have hcore : chunkCore (chunkBound - 1) (c :: cs) = [c :: cs] := by
      rw [chunkCore]
      simp [hc, hrun, chunkCore]
    simp [chunk, hcore]

/-- The receiver-side reply `sendEvent` for a `PROCEDURE_NOT_FOUND`
failure produces exactly one envelope carrying the serialized error. -/
theorem sendEvent_notFound (i : String) (e : Env) :
    sendEvent { id := i, type := .RESPONSE_ERROR, env := e } (some ERR_NOT_FOUND) true
      = some [mkEvent { id := i, type := .RESPONSE_ERROR, env := e } 1 1
               (some "\"PROCEDURE_NOT_FOUND\"".data)] := by
  have h1 : stringifyData ERR_NOT_FOUND = "\"PROCEDURE_NOT_FOUND\"".data := rfl
  have h2 : chunk "\"PROCEDURE_NOT_FOUND\"".data = some ["\"PROCEDURE_NOT_FOUND\"".data] :=
    chunk_small _ (by decide) (by decide) (by decide)
  simp [sendEvent, h1, h2, chunksToEvents]

theorem getA_append_fresh {κ β : Type} [DecidableEq κ]
    (l : List (κ × β)) (k : κ) (v : β) (h : getA l k = none) :
    getA (l ++ [(k, v)]) k = some v := by
  induction l with
  | nil => simp [getA]
  | cons hd t ih =>
    obtain ⟨k₀, v₀⟩ := hd
    by_cases hk : k₀ = k
    · simp [getA, hk] at h
    · simp only [List.cons_append]
      simp only [getA, hk, if_false] at h ⊢
      exact ih h

theorem settlePromise_settles (l : List (Nat × Option Settlement)) (pid : Nat)
    (s : Settlement) (h : getA l pid = some none) :
    getA (settlePromise l pid s) pid = some (some s) := by
  simp [settlePromise, h, settleFirst]

theorem settleFirst_settled (s s' : Settlement) :
    settleFirst (some s) s' = some s := rfl

theorem chunksToEvents_mem_base (b : EventBase) (total : Nat) :
    ∀ (idx : Nat) (ps : List (List Char)) (e : Event),
      e ∈ chunksToEvents b total idx ps → e.base = b := by
  intro idx ps
  induction ps generalizing idx with
  | nil => intro e he; simp [chunksToEvents] at he
  | cons x xs ih =>
    intro e he
    simp only [chunksToEvents, List.mem_cons] at he
    rcases he with rfl | he
    · exact mkEvent_base b _ _ _
    · exact ih (idx + 1) e he

theorem sendEvent_mem_noRet (b : EventBase) (args : Option JsVal) (split : Bool)
    (evs : List Event) (hsend : sendEvent b args split = some evs) :
    ∀ e ∈ evs, e.noRet = b.noRet := by
  intro e he
  cases args with
  | none =>
    have hv : [mkEvent b 1 1 none] = evs := Option.some.inj hsend
    subst hv
    simp at he
    subst he
    rfl
  | some v =>
    have hsend' : (if split then chunk (stringifyData v)
        else some [stringifyData v]).map (fun ps => chunksToEvents b ps.length 0 ps)
          = some evs := hsend
    cases hps : (if split then chunk (stringifyData v) else some [stringifyData v]) with
    | none =>
      rw [hps] at hsend'
      simp at hsend'
    | some ps =>
      rw [hps] at hsend'
      simp only [Option.map] at hsend'
      have hv := Option.some.inj hsend'
      subst hv
      have hb := chunksToEvents_mem_base b ps.length 0 ps e he
      rw [← hb]
      rfl

/-! ## Procedure, event and surface registries -/

/-- `register(name, cb)`: assigns the handler slot; in the `cef`
environment it additionally announces ownership on `BROWSER_REGISTER` —
the announced name is the second component. -/
def register (env : Env) (listeners : Listeners) (name : String) (cb : ProcHandler) :
    Listeners × Option String :=
  (setA listeners name (some cb), if env = .cef then some name else none)

/-- `unregister(name)`: `rpcListeners[name] = undefined` (the slot is
assigned `undefined`, not deleted). -/
def unregister (listeners : Listeners) (name : String) : Listeners :=
  setA listeners name none

/-- The `BROWSER_REGISTER` subscription installed by `addWebView`:
`rpcBrowserProcedures[procedure] = webView` — each announcement
overwrites any previous claimant of the name. -/
def browserRegister (procs : List (String × Browser)) (name : String)
    (wv : Browser) : List (String × Browser) :=
  setA procs name wv

/-- An event handler; the `Nat` tag in an entry models JS function
identity (`Set` membership and `Set.delete` compare by identity). -/
def EvHandler : Type :=
  Option JsVal → ListenerInfo → Except (Option JsVal) (Option JsVal)

def EvEntry : Type := Nat × EvHandler

def EvListeners : Type := List (String × List EvEntry)

/-- `on(name, cb)`: fetch or create the per-name `Set` and add the
handler (a no-op if an identical handler is already subscribed). -/
def onEv (tbl : EvListeners) (name : String) (h : EvEntry) : EvListeners :=
  let listeners := (getA tbl name).getD []
  let listeners := if listeners.any (fun e => e.1 = h.1) then listeners
                   else listeners ++ [h]
  setA tbl name listeners

/-- `off(name, cb)`: remove the handler from the per-name `Set`, if the
set exists. -/
def offEv (tbl : EvListeners) (name : String) (tag : Nat) : EvListeners :=
  match getA tbl name with
  | none => tbl
  | some ls => setA tbl name (ls.filter (fun e => e.1 ≠ tag))

/-- `listeners.forEach(listener => listener(args, info))` with exception
semantics: an exception thrown by a handler aborts the iteration and
propagates.  Returns the values returned by the handlers that *were*
invoked, in order, and the propagated exception if any. -/
def runSubscribers (hs : List EvEntry) (args : Option JsVal) (info : ListenerInfo) :
    List (Option JsVal) × Option (Option JsVal) :=
  match hs with
  | [] => ([], none)
  | h :: t =>
    match h.2 args info with
    | .error e => ([], some e)
    | .ok v =>
      let rest := runSubscribers t args info
      (v :: rest.1, rest.2)

/-- `callEvent(name, args, info)`. -/
def callEvent (tbl : EvListeners) (name : String) (args : Option JsVal)
    (info : ListenerInfo) : List (Option JsVal) × Option (Option JsVal) :=
  match getA tbl name with
  | none => ([], none)
  | some ls => runSubscribers ls args info

/-- `trigger(name, args)`: a local fan-out with `info = { environment }`. -/
def trigger (env : Env) (tbl : EvListeners) (name : String) (args : Option JsVal) :
    List (Option JsVal) × Option (Option JsVal) :=
  callEvent tbl name args { environment := env }

/-! ## Timeout wrapper (`util.promiseTimeout`) -/

def TIMEOUT : JsVal := .str "TIMEOUT".data

def timeoutRejection : Settlement := .rejected (some TIMEOUT)

/-- `util.promiseTimeout(promise, timeout)`: with a numeric timeout the
result races the promise against a timer rejecting with `'TIMEOUT'`;
without one the promise is returned untouched.  `underlying` is the time
(`none` = never) and value with which the wrapped promise settles. -/
def promiseTimeout (underlying : Option (Nat × Settlement)) (timeout : Option Nat) :
    Option Settlement :=
  match timeout with
  | none => underlying.map (fun u => u.2)
  | some t =>
    match underlying with
    | none => some timeoutRejection
    | some (r, s) => if r < t then some s else some timeoutRejection

/-- The timer callback of `promiseTimeout`: it settles only the race
promise (first write wins); it touches no table of the RPC state. -/
def timerFire (st : ProcState) (racePid : Nat) : ProcState :=
  { st with promises := settlePromise st.promises racePid timeoutRejection }

/-! ## The call facade

Translated from the `call*` / `trigger*` functions of `index.ts`.
`rpcNamespace` is `ns : Option String` (`none` = the falsy `''` before
`init`).  `util.uid()` is an oracle: each facade call takes the generated
`id` as a parameter (each call sends at most one request).  Arity/`typeof`
validation of the JS argument reshuffling is not representable in a typed
embedding and is omitted; every other guard is transcribed in source
order. -/

inductive RpcError where
  | notInitialized
  | thrownString (s : String)
  | jsError (e : JsError)

inductive CallOutcome where
  | immediate (s : Settlement)
  | promisePending (pid : Nat) (timeout : Option Nat)

structure CallResult where
  st : ProcState
  emissions : List Emission
  outcome : CallOutcome

structure CallOptions where
  timeout : Option Nat := none
  noRet : Bool := false

/-- The `Partial<Event>` extra data threaded through the internal call
functions. -/
structure ExtraData where
  noRet : Bool := false
  fenv : Option Env := none

def getEventName (pre ns : String) : String := pre ++ "::" ++ ns

/-- `util.promiseTimeout` applied by a public wrapper to the promise an
internal call function returned. -/
def applyTimeout (o : CallOutcome) (t : Option Nat) : CallOutcome :=
  match o with
  | .immediate s => .immediate s
  | .promisePending pid _ => .promisePending pid t

/-- `call(name, args, options)`: a local procedure call, wrapped in
`promiseTimeout` (the underlying promise settles at once, so the race
yields its settlement). -/
def call (env : Env) (listeners : Listeners) (name : String) (args : Option JsVal)
    (_options : CallOptions) : CallOutcome :=
  match callProcedure listeners name args { environment := env } with
  | .ok v => .immediate (.fulfilled v)
  | .error e => .immediate (.rejected e)

/-- `_callClient(player, name, args, extraData)`. -/
def _callClient (env : Env) (ns : Option String) (st : ProcState)
    (listeners : Listeners) (player : Option Player) (id : String) (name : String)
    (args : Option JsVal) (extra : ExtraData) : Except RpcError CallResult :=
  if ns.isNone then .error .notInitialized
  else
    match env with
    | .client => .ok { st := st, emissions := [], outcome := call env listeners name args {} }
    | .server =>
      let alloc := newPromise st
      let st2 := if extra.noRet then alloc.1
                 else { alloc.1 with
                        pending := setA alloc.1.pending id
                          { promiseId := alloc.2, player := player } }
      match sendEvent { id := id, type := .REQUEST, name := some name, env := env,
                        noRet := extra.noRet, fenv := extra.fenv } args true with
      | none => .error (.jsError .forEachOfNull)
      | some evs =>
        .ok { st := st2, emissions := evs.map (Emission.toPlayer player),
              outcome := .promisePending alloc.2 none }
    | .cef =>
      let alloc := newPromise st
      let st2 := if extra.noRet then alloc.1
                 else { alloc.1 with
                        pending := setA alloc.1.pending id { promiseId := alloc.2 } }
      match sendEvent { id := id, type := .REQUEST, name := some name, env := env,
                        noRet := extra.noRet, fenv := extra.fenv } args false with
      | none => .error (.jsError .forEachOfNull)
      | some evs =>
        .ok { st := st2, emissions := evs.map Emission.toClientLocal,
              outcome := .promisePending alloc.2 none }

/-- `callClient(player, name, args, options)`: after the per-environment
argument reshuffle (from `client`/`cef` the player argument is absent and
becomes `null`), build `extraData` from `options.noRet` and delegate. -/
def callClient (env : Env) (ns : Option String) (st : ProcState)
    (listeners : Listeners) (player : Option Player) (id : String) (name : String)
    (args : Option JsVal) (options : CallOptions) : Except RpcError CallResult :=
  if ns.isNone then .error .notInitialized
  else
    let player := if env = .server then player else none
    let extra : ExtraData := if options.noRet then { noRet := true } else {}
    match _callClient env ns st listeners player id name args extra with
    | .error e => .error e
    | .ok r => .ok { r with outcome := applyTimeout r.outcome options.timeout }

/-- `_callServer(name, args, extraData)`. -/
def _callServer (env : Env) (ns : Option String) (st : ProcState)
    (listeners : Listeners) (id : String) (name : String) (args : Option JsVal)
    (extra : ExtraData) : Except RpcError CallResult :=
  if ns.isNone then .error .notInitialized
  else
    match env with
    | .server => .ok { st := st, emissions := [], outcome := call env listeners name args {} }
    | .client =>
      let alloc := newPromise st
      let st2 := if extra.noRet then alloc.1
                 else { alloc.1 with
                        pending := setA alloc.1.pending id { promiseId := alloc.2 } }
      match sendEvent { id := id, type := .REQUEST, name := some name, env := env,
                        noRet := extra.noRet, fenv := extra.fenv } args true with
      | none => .error (.jsError .forEachOfNull)
      | some evs =>
        .ok { st := st2, emissions := evs.map Emission.toServer,
              outcome := .promisePending alloc.2 none }
    | .cef =>
      -- return callClient('__rpc:callServer', [name, args, +extraData.noRet]);
      -- (options are absent, so the inner call carries no noRet of its own;
      -- `undefined` inside a JS array stringifies as `null`)
      callClient .cef ns st listeners none id "__rpc:callServer"
        (some (.arr [.str name.data, args.getD .null,
                     .num (if extra.noRet then 1 else 0)])) {}

/-- `callServer(name, args, options)`. -/
def callServer (env : Env) (ns : Option String) (st : ProcState)
    (listeners : Listeners) (id : String) (name : String) (args : Option JsVal)
    (options : CallOptions) : Except RpcError CallResult :=
  if ns.isNone then .error .notInitialized
  else
    let extra : ExtraData := if options.noRet then { noRet := true } else {}
    match _callServer env ns st listeners id name args extra with
    | .error e => .error e
    | .ok r => .ok { r with outcome := applyTimeout r.outcome options.timeout }

/-- `_callBrowser(browser, name, args, extraData)`: the validity check
precedes even the namespace check; the request is sent unsplit. -/
def _callBrowser (env : Env) (ns : Option String) (st : ProcState)
    (browser : Option Browser) (id : String) (name : String) (args : Option JsVal)
    (extra : ExtraData) : Except RpcError CallResult :=
  match browser with
  | none => .ok { st := st, emissions := [],
                  outcome := .immediate (.rejected (some INVALID_BROWSER)) }
  | some b =>
    if ¬ b.valid then
      .ok { st := st, emissions := [],
            outcome := .immediate (.rejected (some INVALID_BROWSER)) }
    else if ns.isNone then .error .notInitialized
    else
      let alloc := newPromise st
      let st2 := if extra.noRet then alloc.1
                 else { alloc.1 with
                        pending := setA alloc.1.pending id { promiseId := alloc.2 } }
      match sendEvent { id := id, type := .REQUEST, name := some name, env := env,
                        noRet := extra.noRet, fenv := extra.fenv } args false with
      | none => .error (.jsError .forEachOfNull)
      | some evs =>
        .ok { st := st2, emissions := evs.map (Emission.toBrowser b),
              outcome := .promisePending alloc.2 none }

/-- `_callBrowsers(player, name, args, extraData)`: on the client the
target surface is the `rpcBrowserProcedures` entry for the name; a
missing *or invalid* entry rejects with `PROCEDURE_NOT_FOUND` (the
`INVALID_BROWSER` rejection inside `_callBrowser` is unreachable from
here); on `server`/`cef` the call is rewritten through the client
pass-through procedure. -/
def _callBrowsers (env : Env) (ns : Option String) (st : ProcState)
    (listeners : Listeners) (browserProcs : List (String × Browser))
    (player : Option Player) (id : String) (name : String) (args : Option JsVal)
    (extra : ExtraData) : Except RpcError CallResult :=
  if ns.isNone then .error .notInitialized
  else
    match env with
    | .client =>
      match getA browserProcs name with
      | none => .ok { st := st, emissions := [],
                      outcome := .immediate (.rejected (some ERR_NOT_FOUND)) }
      | some b =>
        if ¬ b.valid then
          .ok { st := st, emissions := [],
                outcome := .immediate (.rejected (some ERR_NOT_FOUND)) }
        else _callBrowser env ns st (some b) id name args extra
    | .server =>
      _callClient env ns st listeners player id "__rpc:callBrowsers"
        (some (.arr [.str name.data, args.getD .null,
                     .num (if extra.noRet then 1 else 0)])) extra
    | .cef =>
      _callClient env ns st listeners none id "__rpc:callBrowsers"
        (some (.arr [.str name.data, args.getD .null,
                     .num (if extra.noRet then 1 else 0)])) extra

/-- `callBrowsers(player, name, args, options)`. -/
def callBrowsers (env : Env) (ns : Option String) (st : ProcState)
    (listeners : Listeners) (browserProcs : List (String × Browser))
    (player : Option Player) (id : String) (name : String) (args : Option JsVal)
    (options : CallOptions) : Except RpcError CallResult :=
  if ns.isNone then .error .notInitialized
  else
    let player := if env = .server then player else none
    let extra : ExtraData := if options.noRet then { noRet := true } else {}
    match _callBrowsers env ns st listeners browserProcs player id name args extra with
    | .error e => .error e
    | .ok r => .ok { r with outcome := applyTimeout r.outcome options.timeout }

/-- `callBrowser(browser, name, args, options)`: outside the client
environment it returns a rejected promise (it does not throw). -/
def callBrowser (env : Env) (ns : Option String) (st : ProcState)
    (browser : Option Browser) (id : String) (name : String) (args : Option JsVal)
    (options : CallOptions) : Except RpcError CallResult :=
  if env ≠ .client then
    .ok { st := st, emissions := [],
          outcome := .immediate (.rejected (some (.str
            "callBrowser can only be used in the client environment".data))) }
  else if ns.isNone then .error .notInitialized
  else
    let extra : ExtraData := if options.noRet then { noRet := true } else {}
    match _callBrowser env ns st browser id name args extra with
    | .error e => .error e
    | .ok r => .ok { r with outcome := applyTimeout r.outcome options.timeout }

/-- `triggerServer(name, args)`. -/
def triggerServer (env : Env) (ns : Option String) (st : ProcState)
    (listeners : Listeners) (id : String) (name : String) (args : Option JsVal) :
    Except RpcError CallResult :=
  if ns.isNone then .error .notInitialized
  else
    _callServer env ns st listeners id
      (getEventName "__rpc:triggerEvent" (ns.getD ""))
      (some (.arr [.str name.data, args.getD .null])) { noRet := true }

/-- `triggerClient(player, name, args)`. -/
def triggerClient (env : Env) (ns : Option String) (st : ProcState)
    (listeners : Listeners) (player : Option Player) (id : String) (name : String)
    (args : Option JsVal) : Except RpcError CallResult :=
  if ns.isNone then .error .notInitialized
  else
    let player := if env = .server then player else none
    _callClient env ns st listeners player id
      (getEventName "__rpc:triggerEvent" (ns.getD ""))
      (some (.arr [.str name.data, args.getD .null])) { noRet := true }

/-- `triggerBrowsers(player, name, args)`. -/
def triggerBrowsers (env : Env) (ns : Option String) (st : ProcState)
    (listeners : Listeners) (player : Option Player) (id : String) (name : String)
    (args : Option JsVal) : Except RpcError CallResult :=
  if ns.isNone then .error .notInitialized
  else
    let player := if env = .server then player else none
    _callClient env ns st listeners player id
      (getEventName "__rpc:triggerEventBrowsers" (ns.getD ""))
      (some (.arr [.str name.data, args.getD .null])) { noRet := true }

/-- `triggerBrowser(browser, name, args)`: outside the client environment
it throws. -/
def triggerBrowser (env : Env) (ns : Option String) (st : ProcState)
    (browser : Option Browser) (id : String) (name : String) (args : Option JsVal) :
    Except RpcError CallResult :=
  if env ≠ .client then
    .error (.thrownString "callBrowser can only be used in the client environment")
  else if ns.isNone then .error .notInitialized
  else
    _callBrowser env ns st browser id
      (getEventName "__rpc:triggerEvent" (ns.getD ""))
      (some (.arr [.str name.data, args.getD .null])) { noRet := true }

/-! ## Further dispatch lemmas used by the claims -/

@[simp] theorem Event_base_type (ev : Event) : (Event.base ev).type = ev.type := rfl

@[simp] theorem Event_base_id (ev : Event) : (Event.base ev).id = ev.id := rfl

/-- A single-envelope message (`total ≤ 1`) for a fresh id completes at
once. -/
theorem reassembleStep_single_complete (tbl : List (String × Incoming)) (ev : Event)
    (hfresh : getA tbl ev.id = none) (htot : ev.total ≤ 1) :
    (reassembleStep tbl ev).2 = some ev.args := by
  have hnot : ¬ 1 < ev.total := by omega
  cases hargs : ev.args with
  | none =>
    rw [reassembleStep_absent_noArgs tbl ev hfresh hargs]
    simp [hnot]
  | some p =>
    rw [reassembleStep_absent tbl ev p hfresh hargs]
    simp [hnot]

/-! ## Claims -/

/-- C3: a response envelope arriving on the server from a player other
than the one recorded in the pending-call entry is dropped: the state is
unchanged except for the reassembly bookkeeping — the pending entry stays,
no promise is settled, and nothing is emitted. -/
theorem C3_response_from_wrong_player_dropped
    (st : ProcState) (listeners : Listeners) (pend : Pending) (ev : Event)
    (p1 p2 : Player)
    (hty : ev.type ≠ EventType.REQUEST)
    (hfresh : getA st.incoming ev.id = none)
    (htot : ev.total ≤ 1)
    (hpend : getA st.pending ev.id = some pend)
    (hplayer : pend.player = some p1)
    (hne : p2 ≠ p1) :
    processEvent .server listeners st ev (some p2) none
      = .ok ({ st with incoming := (reassembleStep st.incoming ev).1 }, []) := by
  rw [processEvent_complete .server listeners st ev (some p2) none ev.args
    (reassembleStep_single_complete st.incoming ev hfresh htot)]
  have hcond : pend.player ≠ some p2 := by
    rw [hplayer]
    intro hcontra
    exact hne (Option.some.inj hcontra).symm
  cases htyc : ev.type with
  | REQUEST => exact absurd htyc hty
  | RESPONSE_SUCCESS => simp [dispatchComplete, htyc, hpend, hcond]
  | RESPONSE_ERROR => simp [dispatchComplete, htyc, hpend, hcond]

/-- Witness for C3 at a concrete input. -/
theorem C3_witness :
    processEvent .server []
      { pending := [("id1", { player := some ⟨1⟩, promiseId := 0 })],
        promises := [(0, none)], nextPromise := 1 }
      { id := "id1", type := .RESPONSE_SUCCESS, env := .client, part := 1, total := 1 }
      (some ⟨2⟩) none
      = .ok ({ incoming := [("id1", { args := none, recv := 1, total := 1 })],
               pending := [("id1", { player := some ⟨1⟩, promiseId := 0 })],
               promises := [(0, none)], nextPromise := 1 }, []) := by
  have h := C3_response_from_wrong_player_dropped
    { pending := [("id1", { player := some ⟨1⟩, promiseId := 0 })],
      promises := [(0, none)], nextPromise := 1 }
    [] { player := some ⟨1⟩, promiseId := 0 }
    { id := "id1", type := .RESPONSE_SUCCESS, env := .client, part := 1, total := 1 }
    ⟨1⟩ ⟨2⟩ (by simp) rfl (by simp) rfl rfl (by simp)
  exact h

/-- C4: a response envelope whose correlation id has no pending entry is
dropped silently on the client and on cef, but on the server `processEvent`
reads `info.player` before the `if (info)` guard and crashes with a
`TypeError`; the claim that every environment drops it with no error is
violated by the server. -/
theorem C4_unknown_id_response_crashes_on_server :
    processEvent .server [] {}
      { id := "zzz999", type := .RESPONSE_SUCCESS, env := .client, part := 1, total := 1 }
      (some ⟨1⟩) none = .error .typeErrorUndefinedPlayer
  ∧ processEvent .client [] {}
      { id := "zzz999", type := .RESPONSE_SUCCESS, env := .server, part := 1, total := 1 }
      none none
      = .ok ({ incoming := [("zzz999", { args := none, recv := 1, total := 1 })] }, [])
  ∧ processEvent .cef [] {}
      { id := "zzz999", type := .RESPONSE_ERROR, env := .client, part := 1, total := 1 }
      none none
      = .ok ({ incoming := [("zzz999", { args := none, recv := 1, total := 1 })] }, []) :=
  ⟨rfl, rfl, rfl⟩

/-- C6: the reassembly entry for a completed message is never removed:
after both chunks of a two-part message have arrived and the payload has
been dispatched (here a `noRet` request, processed without error and with
no further effect), the `rpcIncoming` entry is still present, fully
accumulated — contradicting the claim that it is destroyed on
completion. -/
theorem C6_incoming_entry_never_destroyed :
    processEvents .server [] {}
      [mkEvent { id := "abc123", type := .REQUEST, name := some "f", env := .client,
                 noRet := true } 1 2 (some ['a']),
       mkEvent { id := "abc123", type := .REQUEST, name := some "f", env := .client,
                 noRet := true } 2 2 (some ['b'])]
      (some ⟨7⟩) none
      = .ok ({ incoming := [("abc123", { args := some ['a', 'b'], recv := 2, total := 2 })] }, [])
  ∧ getA [("abc123", { args := some ['a', 'b'], recv := 2, total := 2 : Incoming })] "abc123"
      ≠ none :=
  ⟨rfl, by simp [getA]⟩

/-- The exact fan-out semantics of `Set.forEach` with a throwing handler:
with the subscribers before the thrower all succeeding, the trigger
returns exactly their outputs and propagates the thrown value; the
subscribers after the thrower are never invoked. -/
theorem runSubscribers_throw (pre post : List EvEntry) (h : EvEntry)
    (args : Option JsVal) (info : ListenerInfo)
    (outs : List (Option JsVal)) (e : Option JsVal)
    (hpre : pre.map (fun g => g.2 args info) = outs.map Except.ok)
    (hh : h.2 args info = .error e) :
    runSubscribers (pre ++ h :: post) args info = (outs, some e) := by
  induction pre generalizing outs with
  | nil =>
    have houts : outs = [] := by
      cases outs with
      | nil => rfl
      | cons o os => simp at hpre
    subst houts
    simp [runSubscribers, hh]
  | cons g gs ih =>
    cases outs with
    | nil => simp at hpre
    | cons o os =>
      simp only [List.map_cons, List.cons.injEq] at hpre
      obtain ⟨hg, hgs⟩ := hpre
      simp only [List.cons_append, runSubscribers, hg]
      rw [show gs.append (h :: post) = gs ++ h :: post from rfl, ih os hgs]

/-- C5 (amended): when one subscriber throws, the exception *does*
propagate to the trigger call-site and the subscribers later in insertion
order are *not* invoked: the trigger returns exactly the outputs of the
subscribers preceding the thrower together with the thrown value. -/
theorem C5_handler_exception_propagates (env : Env) (tbl : EvListeners)
    (name : String) (pre post : List EvEntry) (h : EvEntry)
    (args : Option JsVal) (outs : List (Option JsVal)) (e : Option JsVal)
    (htbl : getA tbl name = some (pre ++ h :: post))
    (hpre : pre.map (fun g => g.2 args { environment := env }) = outs.map Except.ok)
    (hh : h.2 args { environment := env } = .error e) :
    trigger env tbl name args = (outs, some e) := by
  rw [trigger, callEvent, htbl]
  exact runSubscribers_throw pre post h args { environment := env } outs e hpre hh

/-- Witness for the amended C5 at a concrete input: one succeeding
subscriber, then a thrower, then a subscriber that is never reached. -/
theorem C5_witness :
    trigger .client
      [("evt", [(0, fun a _ => .ok a),
                (1, fun _ _ => .error (some (.str "boom".data))),
                (2, fun _ _ => .ok none)])]
      "evt" none
      = ([none], some (some (.str "boom".data))) := by
  have h := C5_handler_exception_propagates .client
    [("evt", [(0, fun a _ => .ok a),
              (1, fun _ _ => .error (some (.str "boom".data))),
              (2, fun _ _ => .ok none)])]
    "evt" [(0, fun a _ => .ok a)]
    [(2, fun _ _ => .ok none)]
    (1, fun _ _ => .error (some (.str "boom".data)))
    none [none] (some (.str "boom".data)) rfl rfl rfl
  exact h

/-- C5 (counterexample to the claim as stated): with two subscribers of
which the first throws, the exception reaches the trigger call-site
(second component `some`), and the other subscriber is not invoked (no
output was produced), contradicting both halves of the claim. -/
theorem C5_counterexample :
    trigger .client
      [("evt", [(0, fun _ _ => .error (some (.str "boom".data))),
                (1, fun _ _ => .ok (some (.num 1)))])]
      "evt" none
      = ([], some (some (.str "boom".data))) := rfl

/-- C9 (counterexample to the claim as stated): with the surface registry
recording an invalid surface for `ping`, the "call any surface" path
rejects with `PROCEDURE_NOT_FOUND` — not with the `INVALID_BROWSER`
(InvalidSurface) error the claim promises for this case. -/
theorem C9_counterexample :
    _callBrowsers .client (some "ns") {} [] [("ping", { bid := 1, valid := false })]
        none "id1" "ping" none {}
      = .ok { st := {}, emissions := [],
              outcome := .immediate (.rejected (some ERR_NOT_FOUND)) }
  ∧ ERR_NOT_FOUND ≠ INVALID_BROWSER := by
  refine ⟨rfl, ?_⟩
  simp only [ERR_NOT_FOUND, INVALID_BROWSER, ne_eq, JsVal.str.injEq]
  decide

/-- C9 (amended): "call any surface" routing on the client — ownership
announcements overwrite, so the most recent claimant wins; a name with no
claimant rejects with `PROCEDURE_NOT_FOUND`; a name whose recorded
surface is invalid also rejects with `PROCEDURE_NOT_FOUND` (not
`INVALID_BROWSER`); a valid claimant receives the single request envelope
directly, with no other surface attempted. -/
theorem C9_callBrowsers_routing (ns : String) (st : ProcState)
    (listeners : Listeners) (procs : List (String × Browser)) (name id : String)
    (args : Option JsVal) (extra : ExtraData) :
    (∀ A B : Browser,
      getA (browserRegister (browserRegister procs name A) name B) name = some B)
  ∧ (getA procs name = none →
      _callBrowsers .client (some ns) st listeners procs none id name args extra
        = .ok { st := st, emissions := [],
                outcome := .immediate (.rejected (some ERR_NOT_FOUND)) })
  ∧ (∀ b : Browser, getA procs name = some b → b.valid = false →
      _callBrowsers .client (some ns) st listeners procs none id name args extra
        = .ok { st := st, emissions := [],
                outcome := .immediate (.rejected (some ERR_NOT_FOUND)) })
  ∧ (∀ b : Browser, getA procs name = some b → b.valid = true →
      _callBrowsers .client (some ns) st listeners procs none id name args extra
        = .ok { st := (if extra.noRet then (newPromise st).1
                       else { (newPromise st).1 with
                              pending := setA (newPromise st).1.pending id
                                { promiseId := (newPromise st).2 } }),
                emissions := [Emission.toBrowser b
                  (mkEvent { id := id, type := .REQUEST, name := some name,
                             env := .client, noRet := extra.noRet, fenv := extra.fenv }
                    1 1 (args.map stringifyData))],
                outcome := .promisePending (newPromise st).2 none }) := by
  refine ⟨?_, ?_, ?_, ?_⟩
  · intro A B
    simp [browserRegister]
  · intro hnone
    simp [_callBrowsers, hnone]
  · intro b hb hinvalid
    simp [_callBrowsers, hb, hinvalid]
  · intro b hb hvalid
    simp only [_callBrowsers, Option.isNone_some, Bool.false_eq_true, if_false, hb, hvalid,
      Bool.not_true, _callBrowser]
    cases args with
    | none => rfl
    | some v => rfl

/-- Witness for the amended C9 at concrete inputs. -/
theorem C9_witness :
    getA (browserRegister (browserRegister [] "ping" { bid := 1, valid := true })
            "ping" { bid := 2, valid := true }) "ping" = some { bid := 2, valid := true }
  ∧ _callBrowsers .client (some "ns") {} [] [] none "id1" "ping" none {}
      = .ok { st := {}, emissions := [],
              outcome := .immediate (.rejected (some ERR_NOT_FOUND)) }
  ∧ _callBrowsers .client (some "ns") {} [] [("ping", { bid := 2, valid := true })]
        none "id1" "ping" none {}
      = .ok { st := (if (({} : ExtraData)).noRet then (newPromise {}).1
                     else { (newPromise {}).1 with
                            pending := setA (newPromise {}).1.pending "id1"
                              { promiseId := (newPromise {}).2 } }),
              emissions := [Emission.toBrowser { bid := 2, valid := true }
                (mkEvent { id := "id1", type := .REQUEST, name := some "ping",
                           env := .client, noRet := false, fenv := none }
                  1 1 none)],
              outcome := .promisePending (newPromise {}).2 none } := by
  refine ⟨?_, ?_, ?_⟩
  · exact (C9_callBrowsers_routing "ns" {} [] [] "ping" "id1" none {}).1
      { bid := 1, valid := true } { bid := 2, valid := true }
  · exact (C9_callBrowsers_routing "ns" {} [] [] "ping" "id1" none {}).2.1 rfl
  · exact (C9_callBrowsers_routing "ns" {} []
      [("ping", { bid := 2, valid := true })] "ping" "id1" none {}).2.2.2
      { bid := 2, valid := true } rfl rfl

/-- C8: a call with a numeric timeout that receives no response within it
(no response ever, or one at `r ≥ T`) rejects with `'TIMEOUT'`; the timer
path settles only the race promise and removes nothing from the pending
or reassembly tables (and an unsettled race cell it does settle becomes
the `'TIMEOUT'` rejection); a settled promise ignores later writes, so a
late response cannot change the outcome; and a late response arriving
while the entry is still present is processed without error — it settles
the (by then irrelevant) inner promise and deletes the entry. -/
theorem C8_timeout_semantics :
    (∀ T : Nat, promiseTimeout none (some T) = some timeoutRejection)
  ∧ (∀ (T r : Nat) (s : Settlement), T ≤ r →
      promiseTimeout (some (r, s)) (some T) = some timeoutRejection)
  ∧ (∀ (st : ProcState) (pid : Nat),
      (timerFire st pid).pending = st.pending ∧ (timerFire st pid).incoming = st.incoming)
  ∧ (∀ (st : ProcState) (pid : Nat), getA st.promises pid = some none →
      getA (timerFire st pid).promises pid = some (some timeoutRejection))
  ∧ (∀ s : Settlement, settleFirst (some timeoutRejection) s = some timeoutRejection)
  ∧ (∀ (st : ProcState) (listeners : Listeners) (pend : Pending) (ev : Event),
      ev.type ≠ EventType.REQUEST → getA st.incoming ev.id = none → ev.total ≤ 1 →
      getA st.pending ev.id = some pend →
      processEvent .client listeners st ev none none
        = .ok ({ st with
                 incoming := (reassembleStep st.incoming ev).1,
                 pending := delA st.pending ev.id,
                 promises := settlePromise st.promises pend.promiseId
                   (if ev.type = EventType.RESPONSE_SUCCESS
                    then Settlement.fulfilled (ev.args.bind parseData)
                    else Settlement.rejected (ev.args.bind parseData)) }, [])) := by
  refine ⟨?_, ?_, ?_, ?_, ?_, ?_⟩
  · intro T
    rfl
  · intro T r s h
    simp only [promiseTimeout]
    rw [if_neg (by omega)]
  · intro st pid
    exact ⟨rfl, rfl⟩
  · intro st pid h
    exact settlePromise_settles st.promises pid timeoutRejection h
  · intro s
    rfl
  · intro st listeners pend ev hty hfresh htot hpend
    rw [processEvent_complete .client listeners st ev none none ev.args
      (reassembleStep_single_complete st.incoming ev hfresh htot)]
    cases htyc : ev.type with
    | REQUEST => exact absurd htyc hty
    | RESPONSE_SUCCESS => simp [dispatchComplete, htyc, hpend, settleResponseB]
    | RESPONSE_ERROR => simp [dispatchComplete, htyc, hpend, settleResponseB]

/-- Witness for C8 at concrete inputs (timeout 100ms; a response at
150ms; a pending entry for id `"id1"` resolved by a late response). -/
theorem C8_witness :
    promiseTimeout none (some 100) = some timeoutRejection
  ∧ promiseTimeout (some (150, Settlement.fulfilled none)) (some 100) = some timeoutRejection
  ∧ (timerFire { promises := [(0, none)] } 0).pending = ([] : List (String × Pending))
  ∧ getA (timerFire { promises := [(0, none)] } 0).promises 0
      = some (some timeoutRejection)
  ∧ settleFirst (some timeoutRejection) (Settlement.fulfilled none) = some timeoutRejection
  ∧ processEvent .client []
      { pending := [("id1", { player := none, promiseId := 0 })],
        promises := [(0, none)], nextPromise := 1 }
      { id := "id1", type := .RESPONSE_SUCCESS, env := .server, part := 1, total := 1 }
      none none
      = .ok ({ incoming := (reassembleStep []
                 { id := "id1", type := .RESPONSE_SUCCESS, env := .server,
                   part := 1, total := 1 }).1,
               pending := delA [("id1", { player := none, promiseId := 0 })] "id1",
               promises := settlePromise [(0, none)] 0
                 (if ({ id := "id1", type := .RESPONSE_SUCCESS, env := .server,
                        part := 1, total := 1 } : Event).type = EventType.RESPONSE_SUCCESS
                  then Settlement.fulfilled none
                  else Settlement.rejected none),
               nextPromise := 1 }, []) := by
  refine ⟨C8_timeout_semantics.1 100,
          C8_timeout_semantics.2.1 100 150 (Settlement.fulfilled none) (by decide),
          (C8_timeout_semantics.2.2.1 { promises := [(0, none)] } 0).1,
          C8_timeout_semantics.2.2.2.1 { promises := [(0, none)] } 0 rfl,
          C8_timeout_semantics.2.2.2.2.1 (Settlement.fulfilled none),
          ?_⟩
  exact C8_timeout_semantics.2.2.2.2.2
    { pending := [("id1", { player := none, promiseId := 0 })],
      promises := [(0, none)], nextPromise := 1 }
    [] { player := none, promiseId := 0 }
    { id := "id1", type := .RESPONSE_SUCCESS, env := .server, part := 1, total := 1 }
    (by simp) rfl (by simp) rfl

/-- C10: the purely local operations — `register`, `unregister`, `call`,
`on`, `off`, `trigger` — consult no namespace and work before `init()`
(register-then-call invokes the handler; unregister makes the call reject
with `PROCEDURE_NOT_FOUND`; on/trigger fan out; off removes), while every
remote operation fails with the not-initialized error when invoked before
`init()` (`callBrowser`/`triggerBrowser` are client-only by their own
environment guard, so they are stated in the client environment — their
only supported one). -/
theorem C10_init_guard :
    (∀ (env : Env) (name : String) (args : Option JsVal),
      call env ((register env [] name (fun a _ => Except.ok a)).1) name args {}
        = .immediate (.fulfilled args))
  ∧ (∀ (env : Env) (name : String) (cb : ProcHandler) (args : Option JsVal),
      call env (unregister ((register env [] name cb).1) name) name args {}
        = .immediate (.rejected (some ERR_NOT_FOUND)))
  ∧ (∀ (env : Env) (name : String) (args : Option JsVal),
      trigger env (onEv [] name (0, fun a _ => Except.ok a)) name args = ([args], none))
  ∧ (∀ (env : Env) (name : String) (h : EvHandler) (args : Option JsVal),
      trigger env (offEv (onEv [] name (0, h)) name 0) name args = ([], none))
  ∧ (∀ (env : Env) (st : ProcState) (listeners : Listeners) (id name : String)
       (args : Option JsVal) (options : CallOptions),
      callServer env none st listeners id name args options = .error .notInitialized)
  ∧ (∀ (env : Env) (st : ProcState) (listeners : Listeners) (player : Option Player)
       (id name : String) (args : Option JsVal) (options : CallOptions),
      callClient env none st listeners player id name args options
        = .error .notInitialized)
  ∧ (∀ (env : Env) (st : ProcState) (listeners : Listeners)
       (procs : List (String × Browser)) (player : Option Player) (id name : String)
       (args : Option JsVal) (options : CallOptions),
      callBrowsers env none st listeners procs player id name args options
        = .error .notInitialized)
  ∧ (∀ (st : ProcState) (browser : Option Browser) (id name : String)
       (args : Option JsVal) (options : CallOptions),
      callBrowser .client none st browser id name args options = .error .notInitialized)
  ∧ (∀ (env : Env) (st : ProcState) (listeners : Listeners) (id name : String)
       (args : Option JsVal),
      triggerServer env none st listeners id name args = .error .notInitialized)
  ∧ (∀ (env : Env) (st : ProcState) (listeners : Listeners) (player : Option Player)
       (id name : String) (args : Option JsVal),
      triggerClient env none st listeners player id name args = .error .notInitialized)
  ∧ (∀ (env : Env) (st : ProcState) (listeners : Listeners) (player : Option Player)
       (id name : String) (args : Option JsVal),
      triggerBrowsers env none st listeners player id name args = .error .notInitialized)
  ∧ (∀ (st : ProcState) (browser : Option Browser) (id name : String)
       (args : Option JsVal),
      triggerBrowser .client none st browser id name args = .error .notInitialized) := by
  refine ⟨?_, ?_, ?_, ?_, ?_, ?_, ?_, ?_, ?_, ?_, ?_, ?_⟩
  · intro env name args
    simp [call, register, callProcedure, getA, setA]
  · intro env name cb args
    simp [call, register, unregister, callProcedure, getA, setA]
  · intro env name args
    simp [trigger, callEvent, onEv, runSubscribers, getA, setA]
  · intro env name h args
    simp [trigger, callEvent, onEv, offEv, runSubscribers, getA, setA]
  · intro env st listeners id name args options
    rfl
  · intro env st listeners player id name args options
    rfl
  · intro env st listeners procs player id name args options
    rfl
  · intro st browser id name args options
    rfl
  · intro env st listeners id name args
    rfl
  · intro env st listeners player id name args
    rfl
  · intro env st listeners player id name args
    rfl
  · intro st browser id name args
    rfl

theorem chunk_ne_nil (l : List Char) (ps : List (List Char)) (h : chunk l = some ps) :
    ps ≠ [] := by
  intro hps
  subst hps
  rw [chunk] at h
  cases hc : chunkCore (chunkBound - 1) l with
  | nil => rw [hc] at h; simp at h
  | cons a as => rw [hc] at h; simp at h

/-- A completed request with `noRet` set is dispatched with no response
envelopes and no state change beyond reassembly, in every environment. -/
theorem dispatchComplete_request_noRet (env : Env) (listeners : Listeners)
    (st1 : ProcState) (b : EventBase) (payload : Option (List Char))
    (player : Option Player) (webView : Option Browser)
    (hty : b.type = .REQUEST) (hnoRet : b.noRet = true) :
    dispatchComplete env listeners st1 b payload player webView = .ok (st1, []) := by
  cases env with
  | server => simp [dispatchComplete, hty, hnoRet]
  | cef => simp [dispatchComplete, hty, hnoRet]
  | client => cases hbev : b.env <;> simp [dispatchComplete, hty, hnoRet, hbev]

/-- C2 (counterexample to the claim as stated): a `noRet` remote call
from the client allocates its promise but never resolves it — the
executor finishes with the cell unsettled (`some none` in the heap) and
with no pending entry, where the claim demands an immediately-fulfilled
promise (`.immediate (.fulfilled none)`); and a `noRet` `callServer`
issued from cef *does* create a pending-call entry (the pass-through
`callClient` call drops the options), refuting the "no entry is ever
created" half as well. -/
theorem C2_counterexample :
    callServer .client (some "ns") {} [] "id1" "proc" none { noRet := true }
      = .ok { st := { promises := [(0, none)], nextPromise := 1 },
              emissions := [Emission.toServer
                (mkEvent { id := "id1", type := .REQUEST, name := some "proc",
                           env := .client, noRet := true, fenv := none } 1 1 none)],
              outcome := .promisePending 0 none }
  ∧ getA [((0 : Nat), (none : Option Settlement))] 0 = some none
  ∧ CallOutcome.promisePending 0 none ≠ CallOutcome.immediate (.fulfilled none)
  ∧ callServer .cef (some "ns") {} [] "id1" "proc" none { noRet := true }
      = .ok { st := { pending := [("id1", { player := none, promiseId := 0 })],
                      promises := [(0, none)], nextPromise := 1 },
              emissions := [Emission.toClientLocal
                (mkEvent { id := "id1", type := .REQUEST, name := some "__rpc:callServer",
                           env := .cef, noRet := false, fenv := none } 1 1
                  (some (stringifyData (JsVal.arr
                    [JsVal.str "proc".data, JsVal.null, JsVal.num 1]))))],
              outcome := .promisePending 0 none }
  ∧ getA [("id1", ({ player := none, promiseId := 0 } : Pending))] "id1"
      = some { player := none, promiseId := 0 } := by
  refine ⟨rfl, rfl, ?_, rfl, rfl⟩
  intro h
  exact CallOutcome.noConfusion h

/-- `promiseTimeout` with no numeric timeout leaves a local call outcome
unchanged (a local call settles at once). -/
theorem applyTimeout_call (env : Env) (l : Listeners) (n : String) (a : Option JsVal)
    (o : CallOptions) (t : Option Nat) :
    applyTimeout (call env l n a o) t = call env l n a o := by
  simp only [call]
  cases callProcedure l n a { environment := env } <;> rfl

/-- C2 (amended): on every direct `noRet` remote path — `callServer` from
the client, `callClient` from the server or from cef, `callBrowser` from
the client, `callBrowsers` from any environment — no pending-table entry
is created, the request envelopes carry `noRet` (so the receiving context
sends no response envelope for the id, proved for the server receiver),
and the caller-side promise is allocated unsettled and never settles
(nothing stores its resolve, and a response for the id is dropped) rather
than resolving immediately.  The exception is `callServer` issued from
cef: its pass-through `callClient` call carries no options, so a pending
entry storing the resolve *is* created for the forwarded id, and the
forwarded envelope does not carry `noRet` (the flag travels inside the
payload instead).  The same-environment variants (`callServer` on the
server, `callClient` on the client) perform a local call and ignore
`noRet` entirely. -/
theorem C2_noRet_call_semantics (ns : String) (st : ProcState)
    (listeners : Listeners) (id name : String) (args : Option JsVal)
    (evs : List Event)
    (hsend : sendEvent { id := id, type := .REQUEST, name := some name,
                         env := .client, noRet := true, fenv := none } args true
               = some evs) :
    callServer .client (some ns) st listeners id name args { noRet := true }
      = .ok { st := { st with
                      promises := st.promises ++ [(st.nextPromise, none)],
                      nextPromise := st.nextPromise + 1 },
              emissions := evs.map Emission.toServer,
              outcome := .promisePending st.nextPromise none }
  ∧ (getA st.promises st.nextPromise = none →
      getA (st.promises ++ [(st.nextPromise, none)]) st.nextPromise = some none)
  ∧ (∀ e ∈ evs, e.noRet = true)
  ∧ (∀ (rlisteners : Listeners) (rst : ProcState) (p : Player),
      getA rst.incoming id = none →
      (processEvents .server rlisteners rst evs (some p) none).map Prod.snd
        = .ok ([] : List Emission))
  ∧ (∀ (listeners2 : Listeners) (ev2 : Event),
      ev2.id = id → ev2.type ≠ EventType.REQUEST → ev2.total ≤ 1 →
      getA st.incoming ev2.id = none → getA st.pending id = none →
      processEvent .client listeners2
        { st with
          promises := st.promises ++ [(st.nextPromise, none)],
          nextPromise := st.nextPromise + 1 } ev2 none none
        = .ok ({ st with
                 promises := st.promises ++ [(st.nextPromise, none)],
                 nextPromise := st.nextPromise + 1,
                 incoming := (reassembleStep st.incoming ev2).1 }, []))
  ∧ (∀ (st2 : ProcState) (player : Option Player) (id2 name2 : String)
       (args2 : Option JsVal) (evs2 : List Event),
      sendEvent { id := id2, type := .REQUEST, name := some name2,
                  env := .server, noRet := true, fenv := none } args2 true = some evs2 →
      callClient .server (some ns) st2 listeners player id2 name2 args2 { noRet := true }
        = .ok { st := (newPromise st2).1,
                emissions := evs2.map (Emission.toPlayer player),
                outcome := .promisePending (newPromise st2).2 none })
  ∧ (∀ (st2 : ProcState) (id2 name2 : String) (args2 : Option JsVal),
      callClient .cef (some ns) st2 listeners none id2 name2 args2 { noRet := true }
        = .ok { st := (newPromise st2).1,
                emissions := [Emission.toClientLocal
                  (mkEvent { id := id2, type := .REQUEST, name := some name2,
                             env := .cef, noRet := true, fenv := none } 1 1
                    (args2.map stringifyData))],
                outcome := .promisePending (newPromise st2).2 none })
  ∧ (∀ (st2 : ProcState) (b : Browser) (id2 name2 : String) (args2 : Option JsVal),
      b.valid = true →
      callBrowser .client (some ns) st2 (some b) id2 name2 args2 { noRet := true }
        = .ok { st := (newPromise st2).1,
                emissions := [Emission.toBrowser b
                  (mkEvent { id := id2, type := .REQUEST, name := some name2,
                             env := .client, noRet := true, fenv := none } 1 1
                    (args2.map stringifyData))],
                outcome := .promisePending (newPromise st2).2 none })
  ∧ (∀ (st2 : ProcState) (procs : List (String × Browser)) (b : Browser)
       (id2 name2 : String) (args2 : Option JsVal),
      getA procs name2 = some b → b.valid = true →
      callBrowsers .client (some ns) st2 listeners procs none id2 name2 args2
          { noRet := true }
        = .ok { st := (newPromise st2).1,
                emissions := [Emission.toBrowser b
                  (mkEvent { id := id2, type := .REQUEST, name := some name2,
                             env := .client, noRet := true, fenv := none } 1 1
                    (args2.map stringifyData))],
                outcome := .promisePending (newPromise st2).2 none })
  ∧ (∀ (st2 : ProcState) (procs : List (String × Browser)) (player : Option Player)
       (id2 name2 : String) (args2 : Option JsVal) (evs2 : List Event),
      sendEvent { id := id2, type := .REQUEST, name := some "__rpc:callBrowsers",
                  env := .server, noRet := true, fenv := none }
          (some (.arr [.str name2.data, args2.getD .null, .num 1])) true = some evs2 →
      callBrowsers .server (some ns) st2 listeners procs player id2 name2 args2
          { noRet := true }
        = .ok { st := (newPromise st2).1,
                emissions := evs2.map (Emission.toPlayer player),
                outcome := .promisePending (newPromise st2).2 none })
  ∧ (∀ (st2 : ProcState) (procs : List (String × Browser)) (id2 name2 : String)
       (args2 : Option JsVal),
      callBrowsers .cef (some ns) st2 listeners procs none id2 name2 args2
          { noRet := true }
        = .ok { st := (newPromise st2).1,
                emissions := [Emission.toClientLocal
                  (mkEvent { id := id2, type := .REQUEST,
                             name := some "__rpc:callBrowsers",
                             env := .cef, noRet := true, fenv := none } 1 1
                    (some (stringifyData
                      (.arr [.str name2.data, args2.getD .null, .num 1]))))],
                outcome := .promisePending (newPromise st2).2 none })
  ∧ (∀ (st2 : ProcState) (id2 name2 : String) (args2 : Option JsVal),
      callServer .cef (some ns) st2 listeners id2 name2 args2 { noRet := true }
        = .ok { st := { (newPromise st2).1 with
                        pending := (setA (newPromise st2).1.pending id2
                          { promiseId := (newPromise st2).2 }) },
                emissions := [Emission.toClientLocal
                  (mkEvent { id := id2, type := .REQUEST,
                             name := some "__rpc:callServer",
                             env := .cef, noRet := false, fenv := none } 1 1
                    (some (stringifyData
                      (.arr [.str name2.data, args2.getD .null, .num 1]))))],
                outcome := .promisePending (newPromise st2).2 none })
  ∧ (∀ (st2 : ProcState) (id2 : String),
      getA (setA (newPromise st2).1.pending id2 { promiseId := (newPromise st2).2 }) id2
        = some { player := none, promiseId := (newPromise st2).2 })
  ∧ (∀ (st2 : ProcState) (id2 name2 : String) (args2 : Option JsVal),
      callServer .server (some ns) st2 listeners id2 name2 args2 { noRet := true }
        = .ok { st := st2, emissions := [],
                outcome := call .server listeners name2 args2 {} })
  ∧ (∀ (st2 : ProcState) (id2 name2 : String) (args2 : Option JsVal),
      callClient .client (some ns) st2 listeners none id2 name2 args2 { noRet := true }
        = .ok { st := st2, emissions := [],
                outcome := call .client listeners name2 args2 {} }) := by
  refine ⟨?_, ?_, ?_, ?_, ?_, ?_, ?_, ?_, ?_, ?_, ?_, ?_, ?_, ?_, ?_⟩
  · simp only [callServer, _callServer, newPromise, applyTimeout, Option.isNone_some,
      Bool.false_eq_true, if_false, if_true]
    rw [hsend]
  · intro h
    exact getA_append_fresh st.promises st.nextPromise none h
  · exact sendEvent_mem_noRet _ args true evs hsend
  · intro rlisteners rst p hfresh
    cases args with
    | none =>
      have hv : [mkEvent { id := id, type := .REQUEST, name := some name,
                           env := .client, noRet := true, fenv := none } 1 1 none] = evs :=
        Option.some.inj hsend
      subst hv
      rw [processEvents_one, processEvent_complete .server rlisteners rst _ (some p) none
        none (reassembleStep_single_complete rst.incoming _ (by simpa using hfresh) (by simp)),
        mkEvent_base, dispatchComplete_request_noRet .server rlisteners _ _ none (some p) none
          rfl rfl]
      rfl
    | some v =>
      have hsend2 : (if true then chunk (stringifyData v)
          else some [stringifyData v]).map
            (fun ps => chunksToEvents { id := id, type := .REQUEST, name := some name,
                                        env := .client, noRet := true, fenv := none }
                         ps.length 0 ps)
            = some evs := hsend
      rw [if_pos rfl] at hsend2
      cases hps : chunk (stringifyData v) with
      | none =>
        rw [hps] at hsend2
        simp at hsend2
      | some ps =>
        rw [hps] at hsend2
        simp only [Option.map] at hsend2
        have hv := Option.some.inj hsend2
        subst hv
        rw [processEvents_chunks_fresh .server rlisteners (some p) none _ ps 0 rst
          (by simpa using hfresh) (chunk_ne_nil _ ps hps),
          dispatchComplete_request_noRet .server rlisteners _ _ _ (some p) none rfl rfl]
        rfl
  · intro listeners2 ev2 hid hty htot hfresh hnopend
    rw [processEvent_complete .client listeners2 _ ev2 none none ev2.args
      (reassembleStep_single_complete _ ev2 (by simpa [hid] using hfresh) htot)]
    have hpnone : getA st.pending ev2.id = none := by rw [hid]; exact hnopend
    cases htyc : ev2.type with
    | REQUEST => exact absurd htyc hty
    | RESPONSE_SUCCESS => simp [dispatchComplete, htyc, hpnone]
    | RESPONSE_ERROR => simp [dispatchComplete, htyc, hpnone]
  · intro st2 player id2 name2 args2 evs2 hs
    simp only [callClient, _callClient, applyTimeout, newPromise, Option.isNone_some,
      Bool.false_eq_true, if_false, if_true]
    rw [hs]
  · intro st2 id2 name2 args2
    cases args2 <;> rfl
  · intro st2 b id2 name2 args2 hv
    simp only [callBrowser, _callBrowser, applyTimeout, newPromise, hv]
    cases args2 <;> rfl
  · intro st2 procs b id2 name2 args2 hb hv
    simp only [callBrowsers, _callBrowsers, _callBrowser, applyTimeout, newPromise, hb, hv]
    cases args2 <;> rfl
  · intro st2 procs player id2 name2 args2 evs2 hs
    simp only [callBrowsers, _callBrowsers, _callClient, applyTimeout, newPromise,
      Option.isNone_some, Bool.false_eq_true, if_false, if_true]
    rw [hs]
  · intro st2 procs id2 name2 args2
    rfl
  · intro st2 id2 name2 args2
    rfl
  · intro st2 id2
    exact getA_setA_self (newPromise st2).1.pending id2 { promiseId := (newPromise st2).2 }
  · intro st2 id2 name2 args2
    simp only [callServer, _callServer, call]
    cases callProcedure listeners name2 args2 { environment := Env.server } <;> rfl
  · intro st2 id2 name2 args2
    simp only [callClient, _callClient, applyTimeout, call]
    cases callProcedure listeners name2 args2 { environment := Env.client } <;> rfl

/-- Witness for the amended C2 at concrete inputs, one per `noRet` call
path with a hypothesis. -/
theorem C2_witness :
    callServer .client (some "nsp") {} [] "idw" "procw" none { noRet := true }
      = .ok { st := { promises := [(0, none)], nextPromise := 1 },
              emissions := [Emission.toServer
                (mkEvent { id := "idw", type := .REQUEST, name := some "procw",
                           env := .client, noRet := true, fenv := none } 1 1 none)],
              outcome := .promisePending 0 none }
  ∧ getA ([((0 : Nat), (none : Option Settlement))]) 0 = some none
  ∧ (mkEvent { id := "idw", type := .REQUEST, name := some "procw",
               env := .client, noRet := true, fenv := none } 1 1 none).noRet = true
  ∧ (processEvents .server [] {}
       [mkEvent { id := "idw", type := .REQUEST, name := some "procw",
                  env := .client, noRet := true, fenv := none } 1 1 none]
       (some ⟨1⟩) none).map Prod.snd = .ok ([] : List Emission)
  ∧ processEvent .client []
      { promises := [(0, none)], nextPromise := 1 }
      { id := "idw", type := .RESPONSE_SUCCESS, env := .server, part := 1, total := 1 }
      none none
      = .ok ({ incoming := [("idw", { args := none, recv := 1, total := 1 })],
               promises := [(0, none)], nextPromise := 1 }, [])
  ∧ callClient .server (some "nsp") {} [] (some ⟨2⟩) "idc" "procc" none { noRet := true }
      = .ok { st := { promises := [(0, none)], nextPromise := 1 },
              emissions := [Emission.toPlayer (some ⟨2⟩)
                (mkEvent { id := "idc", type := .REQUEST, name := some "procc",
                           env := .server, noRet := true, fenv := none } 1 1 none)],
              outcome := .promisePending 0 none }
  ∧ callBrowser .client (some "nsp") {} (some { bid := 3, valid := true })
        "idb" "procb" none { noRet := true }
      = .ok { st := { promises := [(0, none)], nextPromise := 1 },
              emissions := [Emission.toBrowser { bid := 3, valid := true }
                (mkEvent { id := "idb", type := .REQUEST, name := some "procb",
                           env := .client, noRet := true, fenv := none } 1 1 none)],
              outcome := .promisePending 0 none }
  ∧ callBrowsers .client (some "nsp") {} [] [("procb", { bid := 3, valid := true })]
        none "idb" "procb" none { noRet := true }
      = .ok { st := { promises := [(0, none)], nextPromise := 1 },
              emissions := [Emission.toBrowser { bid := 3, valid := true }
                (mkEvent { id := "idb", type := .REQUEST, name := some "procb",
                           env := .client, noRet := true, fenv := none } 1 1 none)],
              outcome := .promisePending 0 none }
  ∧ callBrowsers .server (some "nsp") {} [] [] (some ⟨2⟩) "idb" "procw" none
        { noRet := true }
      = .ok { st := { promises := [(0, none)], nextPromise := 1 },
              emissions := [Emission.toPlayer (some ⟨2⟩)
                (mkEvent { id := "idb", type := .REQUEST,
                           name := some "__rpc:callBrowsers",
                           env := .server, noRet := true, fenv := none } 1 1
                  (some "[\"procw\",null,1]".data))],
              outcome := .promisePending 0 none }
  ∧ callServer .cef (some "nsp") {} [] "idf" "procw" none { noRet := true }
      = .ok { st := { pending := [("idf", { player := none, promiseId := 0 })],
                      promises := [(0, none)], nextPromise := 1 },
              emissions := [Emission.toClientLocal
                (mkEvent { id := "idf", type := .REQUEST,
                           name := some "__rpc:callServer",
                           env := .cef, noRet := false, fenv := none } 1 1
                  (some (stringifyData
                    (.arr [.str "procw".data, .null, .num 1]))))],
              outcome := .promisePending 0 none }
  ∧ getA (setA (newPromise ({} : ProcState)).1.pending "idf"
        { promiseId := (newPromise ({} : ProcState)).2 }) "idf"
      = some { player := none, promiseId := (newPromise ({} : ProcState)).2 } := by
  have harr : stringifyData (.arr [.str "procw".data, .null, .num 1])
      = "[\"procw\",null,1]".data := rfl
  have hch : chunk "[\"procw\",null,1]".data = some ["[\"procw\",null,1]".data] :=
    chunk_small _ (by decide) (by decide) (by decide)
  have hsB : sendEvent { id := "idb", type := .REQUEST, name := some "__rpc:callBrowsers",
                         env := .server, noRet := true, fenv := none }
      (some (.arr [.str "procw".data, .null, .num 1])) true
        = some [mkEvent { id := "idb", type := .REQUEST,
                          name := some "__rpc:callBrowsers",
                          env := .server, noRet := true, fenv := none } 1 1
                 (some "[\"procw\",null,1]".data)] := by
    simp [sendEvent, harr, hch, chunksToEvents]
  have h := C2_noRet_call_semantics "nsp" {} [] "idw" "procw" none
    [mkEvent { id := "idw", type := .REQUEST, name := some "procw",
               env := .client, noRet := true, fenv := none } 1 1 none] rfl
  refine ⟨h.1, h.2.1 rfl, h.2.2.1 _ (by simp), h.2.2.2.1 [] {} ⟨1⟩ rfl, ?_, ?_, ?_, ?_, ?_, ?_, ?_⟩
  · exact h.2.2.2.2.1 []
      { id := "idw", type := .RESPONSE_SUCCESS, env := .server, part := 1, total := 1 }
      rfl (by simp) (by simp) rfl rfl
  · exact h.2.2.2.2.2.1 {} (some ⟨2⟩) "idc" "procc" none
      [mkEvent { id := "idc", type := .REQUEST, name := some "procc",
                 env := .server, noRet := true, fenv := none } 1 1 none] rfl
  · exact h.2.2.2.2.2.2.2.1 {} { bid := 3, valid := true } "idb" "procb" none rfl
  · exact h.2.2.2.2.2.2.2.2.1 {} [("procb", { bid := 3, valid := true })]
      { bid := 3, valid := true } "idb" "procb" none rfl rfl
  · exact h.2.2.2.2.2.2.2.2.2.1 {} [] (some ⟨2⟩) "idb" "procw" none
      [mkEvent { id := "idb", type := .REQUEST, name := some "__rpc:callBrowsers",
                 env := .server, noRet := true, fenv := none } 1 1
        (some "[\"procw\",null,1]".data)] hsB
  · exact h.2.2.2.2.2.2.2.2.2.2.2.1 {} "idf" "procw" none
  · exact h.2.2.2.2.2.2.2.2.2.2.2.2.1 {} "idf"

/-- C1: the encode/decode round trip fails on the JSON-serializable value
`" "` (one LINE SEPARATOR character): `JSON.stringify` leaves U+2028
raw (the serializer alone round-trips it, first conjunct), but
`util.chunk`'s regex `/.{1,10000}/g` cannot match a LineTerminator, so
the 3-character serialization is emitted as *two* envelopes that drop the
character; reassembly concatenates them to `""` (the JSON text for the
empty string) and the receiver decodes the empty string — not the
original value.  The `undefined` case behaves as claimed: exactly one
envelope with `total = 1` and no chunk, and the receiver dispatches
`undefined` (`none`). -/
theorem C1_roundtrip_fails_on_line_separator :
    parseData (stringifyData (JsVal.str [Char.ofNat 0x2028]))
      = some (JsVal.str [Char.ofNat 0x2028])
  ∧ sendEvent { id := "m1", type := .REQUEST, name := some "f", env := .client }
        (some (JsVal.str [Char.ofNat 0x2028])) true
      = some [mkEvent { id := "m1", type := .REQUEST, name := some "f", env := .client }
                1 2 (some ['"']),
              mkEvent { id := "m1", type := .REQUEST, name := some "f", env := .client }
                2 2 (some ['"'])]
  ∧ reassembleAll []
      [mkEvent { id := "m1", type := .REQUEST, name := some "f", env := .client }
         1 2 (some ['"']),
       mkEvent { id := "m1", type := .REQUEST, name := some "f", env := .client }
         2 2 (some ['"'])]
      = ([("m1", { args := some ['"', '"'], recv := 2, total := 2 })], [some ['"', '"']])
  ∧ parseData ['"', '"'] = some (JsVal.str [])
  ∧ JsVal.str ([] : List Char) ≠ JsVal.str [Char.ofNat 0x2028]
  ∧ sendEvent { id := "m2", type := .REQUEST, name := some "f", env := .client } none true
      = some [mkEvent { id := "m2", type := .REQUEST, name := some "f", env := .client }
                1 1 none]
  ∧ reassembleAll []
      [mkEvent { id := "m2", type := .REQUEST, name := some "f", env := .client } 1 1 none]
      = ([("m2", { args := none, recv := 1, total := 1 })], [none]) := by
  refine ⟨rfl, ?_, rfl, rfl, ?_, rfl, rfl⟩
  · have hq : stringifyData (JsVal.str [Char.ofNat 0x2028])
        = ['"', Char.ofNat 0x2028, '"'] := rfl
    have hc : chunk ['"', Char.ofNat 0x2028, '"'] = some [['"'], ['"']] := by
      simp [chunk, chunkCore, takeRun, chunkBound, isLineTerminator]
    simp [sendEvent, hq, hc, chunksToEvents]
  · intro h
    have h' := JsVal.str.inj h
    simp at h'

/-- A completed request on the server for a name with no handler (never
registered, or unregistered) produces exactly one `RESPONSE_ERROR`
envelope carrying `PROCEDURE_NOT_FOUND`, sent back to the calling
player. -/
theorem dispatchComplete_server_notFound (listenersR : Listeners) (st1 : ProcState)
    (b : EventBase) (payload : Option (List Char)) (p : Player) (name : String)
    (hty : b.type = .REQUEST) (hname : b.name = some name) (hnoRet : b.noRet = false)
    (hlook : (getA listenersR name).getD none = none) :
    dispatchComplete .server listenersR st1 b payload (some p) none
      = .ok (st1, [Emission.toPlayer (some p)
          (mkEvent { id := b.id, type := .RESPONSE_ERROR, env := .server } 1 1
            (some "\"PROCEDURE_NOT_FOUND\"".data))]) := by
  simp [dispatchComplete, hty, hname, hnoRet, callProcedure, hlook, sendEvent_notFound]

/-- C7: calling a procedure name with no registered handler in the target
context never hangs: the server answers the request train (whatever the
arguments) with a single `RESPONSE_ERROR` envelope carrying
`PROCEDURE_NOT_FOUND`, and the caller consuming that response deletes its
pending entry and rejects the call promise with `PROCEDURE_NOT_FOUND`
through the normal response path; and a handler that is registered and
then unregistered is exactly such an absent handler. -/
theorem C7_unregistered_procedure_rejects
    (listenersR : Listeners) (name : String)
    (hlook : (getA listenersR name).getD none = none)
    (id : String) (args : Option JsVal) (evs : List Event)
    (hsend : sendEvent { id := id, type := .REQUEST, name := some name,
                         env := .client, noRet := false, fenv := none } args true
               = some evs)
    (rst : ProcState) (p : Player)
    (hfreshR : getA rst.incoming id = none)
    (cst : ProcState) (listenersC : Listeners) (pend : Pending)
    (hfreshC : getA cst.incoming id = none)
    (hpend : getA cst.pending id = some pend)
    (hcell : getA cst.promises pend.promiseId = some none) :
    (∀ (l : Listeners) (env : Env) (cb : ProcHandler),
      (getA (unregister (register env l name cb).1 name) name).getD none = none)
  ∧ (processEvents .server listenersR rst evs (some p) none).map Prod.snd
      = .ok [Emission.toPlayer (some p)
              (mkEvent { id := id, type := .RESPONSE_ERROR, env := .server } 1 1
                (some "\"PROCEDURE_NOT_FOUND\"".data))]
  ∧ processEvent .client listenersC cst
      (mkEvent { id := id, type := .RESPONSE_ERROR, env := .server } 1 1
        (some "\"PROCEDURE_NOT_FOUND\"".data)) none none
      = .ok ({ cst with
               incoming := (reassembleStep cst.incoming
                 (mkEvent { id := id, type := .RESPONSE_ERROR, env := .server } 1 1
                   (some "\"PROCEDURE_NOT_FOUND\"".data))).1,
               pending := delA cst.pending id,
               promises := settlePromise cst.promises pend.promiseId
                 (Settlement.rejected (some ERR_NOT_FOUND)) }, [])
  ∧ getA (settlePromise cst.promises pend.promiseId
        (Settlement.rejected (some ERR_NOT_FOUND))) pend.promiseId
      = some (some (Settlement.rejected (some ERR_NOT_FOUND))) := by
  refine ⟨?_, ?_, ?_, ?_⟩
  · intro l env cb
    simp [register, unregister, setA_setA]
  · cases args with
    | none =>
      have hv : [mkEvent { id := id, type := .REQUEST, name := some name,
                           env := .client, noRet := false, fenv := none } 1 1 none] = evs :=
        Option.some.inj hsend
      subst hv
      rw [processEvents_one, processEvent_complete .server listenersR rst _ (some p) none
        none (reassembleStep_single_complete rst.incoming _ (by simpa using hfreshR) (by simp)),
        mkEvent_base, dispatchComplete_server_notFound listenersR _ _ none p name
          rfl rfl rfl hlook]
      rfl
    | some v =>
      have hsend' : (if true then chunk (stringifyData v)
          else some [stringifyData v]).map
            (fun ps => chunksToEvents { id := id, type := .REQUEST, name := some name,
                                        env := .client, noRet := false, fenv := none }
                         ps.length 0 ps)
            = some evs := hsend
      rw [if_pos rfl] at hsend'
      cases hps : chunk (stringifyData v) with
      | none =>
        rw [hps] at hsend'
        simp at hsend'
      | some ps =>
        rw [hps] at hsend'
        simp only [Option.map] at hsend'
        have hv := Option.some.inj hsend'
        subst hv
        rw [processEvents_chunks_fresh .server listenersR (some p) none _ ps 0 rst
          (by simpa using hfreshR) (chunk_ne_nil _ ps hps),
          dispatchComplete_server_notFound listenersR _ _ _ p name rfl rfl rfl hlook]
        rfl
  · have hparse : parseData "\"PROCEDURE_NOT_FOUND\"".data = some ERR_NOT_FOUND := rfl
    rw [processEvent_complete .client listenersC cst _ none none
      (some "\"PROCEDURE_NOT_FOUND\"".data)
      (reassembleStep_single_complete cst.incoming _ (by simpa using hfreshC) (by simp)),
      mkEvent_base]
    simp [dispatchComplete, hpend, settleResponseB, hparse]
  · exact settlePromise_settles cst.promises pend.promiseId
      (Settlement.rejected (some ERR_NOT_FOUND)) hcell

/-- Witness for C7 at concrete inputs: name `"echo"`, no registered
handlers on the server, a no-args call with id `"abc123"`, and a caller
with the matching pending entry and an unsettled promise. -/
theorem C7_witness :
    (getA (unregister (register .server [] "echo" (fun a _ => Except.ok a)).1 "echo")
        "echo").getD none = none
  ∧ (processEvents .server [] {}
       [mkEvent { id := "abc123", type := .REQUEST, name := some "echo",
                  env := .client, noRet := false, fenv := none } 1 1 none]
       (some ⟨1⟩) none).map Prod.snd
      = .ok [Emission.toPlayer (some ⟨1⟩)
              (mkEvent { id := "abc123", type := .RESPONSE_ERROR, env := .server } 1 1
                (some "\"PROCEDURE_NOT_FOUND\"".data))]
  ∧ processEvent .client []
      { pending := [("abc123", { player := none, promiseId := 0 })],
        promises := [(0, none)], nextPromise := 1 }
      (mkEvent { id := "abc123", type := .RESPONSE_ERROR, env := .server } 1 1
        (some "\"PROCEDURE_NOT_FOUND\"".data)) none none
      = .ok ({ incoming :=
                 [("abc123", { args := some "\"PROCEDURE_NOT_FOUND\"".data,
                               recv := 1, total := 1 })],
               pending := [],
               promises := [(0, some (Settlement.rejected (some ERR_NOT_FOUND)))],
               nextPromise := 1 }, [])
  ∧ getA (settlePromise [(0, none)] 0 (Settlement.rejected (some ERR_NOT_FOUND))) 0
      = some (some (Settlement.rejected (some ERR_NOT_FOUND))) := by
  have h := C7_unregistered_procedure_rejects [] "echo" rfl "abc123" none
    [mkEvent { id := "abc123", type := .REQUEST, name := some "echo",
               env := .client, noRet := false, fenv := none } 1 1 none]
    rfl {} ⟨1⟩ rfl
    { pending := [("abc123", { player := none, promiseId := 0 })],
      promises := [(0, none)], nextPromise := 1 }
    [] { player := none, promiseId := 0 } rfl rfl rfl
  exact ⟨h.1 [] .server (fun a _ => Except.ok a), h.2.1, h.2.2.1, h.2.2.2⟩

end AltvRpc
